import Mathlib

/-!
Verification development for the TaxCloud external-network client
(`src/main.py`, `src/utils.py`): a shallow embedding in Lean 4 of the
transport client, host validator, session state machine, upload
orchestrator and download/decode helpers, together with theorems that
settle the specification's claims against the code.

Conventions of the embedding:
* Python strings are modelled as `String`/`List Char`; Python `bytes`
  as `List Byte` with `Byte := Fin 256`.
* Effectful code (network calls, widget updates, the clock, file I/O)
  is modelled by explicit state passing: the UI/application object is
  an `AppState` record, network responses are oracle parameters, and
  exceptions are `Option`/`Except` values or injected outcome
  parameters.
* Loops that the source runs without an a-priori bound take a fuel
  argument; fuel exhaustion is `none` and is distinguished from every
  outcome the source can produce.
* Character-level predicates (`str.strip`, `str.isspace`, `str.lower`,
  `str.isdigit`) are modelled on their ASCII behaviour; every input
  appearing in a theorem below is ASCII, so no divergence from the
  Python unicode behaviour is observable in any statement.
-/

deriving instance DecidableEq for Except

namespace TaxCloud

/-- A byte, as found in a Python `bytes` object. -/
abbrev Byte := Fin 256

/-! ## JSON values

The remote service answers with JSON objects carrying at least a
boolean `success` field and, on failure, a `msg` string.  The client
only ever reads fields with `.get`, so a JSON object is modelled as an
association list of string keys and primitive values. -/

/-- A primitive JSON value as consumed by the client (`success`, `msg`
and similar fields).  `null` models Python `None`. -/
inductive JVal where
  | s (v : String)
  | b (v : Bool)
  | null
deriving DecidableEq, Repr

/-- A parsed JSON object body (`resp.json()`), as an association list. -/
abbrev JObj := List (String × JVal)

/-- `d.get(k)`: first binding of `k`, `none` when the key is absent. -/
def jGet (d : JObj) (k : String) : Option JVal :=
  match d with
  | [] => none
  | (k', v) :: rest => if k' = k then some v else jGet rest k

/-- Python truthiness of `d.get(k)`: absent keys and `None` are falsy,
booleans are themselves, strings are truthy iff non-empty. -/
def pyTruthy : Option JVal → Bool
  | none => false
  | some .null => false
  | some (.b v) => v
  | some (.s v) => v ≠ ""

/-- Python `str(...)` of a value obtained by `d.get(k)`, as used inside
f-string log messages (`str(None) = "None"`). -/
def pyStrGet : Option JVal → String
  | none => "None"
  | some .null => "None"
  | some (.b true) => "True"
  | some (.b false) => "False"
  | some (.s v) => v

/-- Python `d.get('msg') == literal`: only a string value can compare
equal to a string literal. -/
def msgEq (v : Option JVal) (lit : String) : Bool :=
  match v with
  | some (.s t) => t = lit
  | _ => false

/-! ## Transport client (`RequestClient`, src/main.py:22-132)

`safe_request` wraps `self.session.request`.  The underlying call
either raises or returns a raw HTTP response; this is the `Outcome`
oracle parameter.  A raw response carries a status code, an optional
parsed JSON body (`none` models a body that `resp.json()` cannot
parse), the byte content, and the chunk stream `iter_content` yields. -/

/-- The uniform response shape every `RequestClient` operation returns
(`TransferResponse` in the spec): after `safe_request`, `json` never
raises (the parse failure is already collapsed to the empty mapping). -/
structure TransferResponse where
  status_code : Nat
  json : JObj
  content : List Byte
  chunks : List (List Byte)
deriving DecidableEq, Repr

/-- What the underlying `self.session.request(...)` call does: raise an
exception (identified by its text) or return a raw response. -/
structure RawResp where
  status_code : Nat
  /-- `some body` when the body parses as JSON, `none` when
  `resp.json()` would raise. -/
  body_json : Option JObj
  content : List Byte
  chunks : List (List Byte)
deriving DecidableEq, Repr

/-- Outcome of one underlying network call. -/
inductive Outcome where
  | raises (e : String)
  | responds (r : RawResp)
deriving DecidableEq, Repr

/-- `RequestClient.safe_request` (src/main.py:58-84).  Returns the
uniform response together with the list of invocations of the injected
`error_handler` (each invocation records `(exception, url)`).  A raised
exception never propagates: it is converted to the synthetic response
with `status_code = 500`, empty parsed body, empty content and an empty
chunk stream, and reported once to the handler when one is injected.
On a non-raising response, `resp.json` is replaced by a wrapper that
returns the empty mapping instead of raising on a parse failure. -/
def safe_request (hasHandler : Bool) (url : String) (o : Outcome) :
    TransferResponse × List (String × String) :=
  match o with
  | .responds r =>
      ({ status_code := r.status_code
         json := r.body_json.getD []
         content := r.content
         chunks := r.chunks }, [])
  | .raises e =>
      ({ status_code := 500, json := [], content := [], chunks := [] },
       if hasHandler then [(e, url)] else [])

/-- `RequestClient._build_base_urls` (src/main.py:29-36). -/
def build_base_urls (HOST : String) : String × String × String × String :=
  let base := "http://" ++ HOST ++ "/cloudcenter/conversionNew"
  (base ++ "/resolveCode", base ++ "/uploadFile",
   base ++ "/getFileListForDownCode", base ++ "/downLoadFile")

/-- `RequestClient._build_cookies` (src/main.py:38-39). -/
def build_cookies : List (String × String) := [("_systemType_", "_NANJING_")]

/-- `RequestClient._build_headers` (src/main.py:41-56). -/
def build_headers (HOST : String) (x_requested content_type : Bool) :
    List (String × String) :=
  [("Origin", "http://" ++ HOST),
   ("Referer", "http://" ++ HOST ++ "/cloudcenter/nj_home.html"),
   ("accept-language", "zh-CN,zh;q=0.9"),
   ("User-Agent", "Mozilla/5.0 (Windows NT 10.0; Win64; x64) AppleWebKit/537.36 (KHTML, like Gecko) Chrome/142.0.0.0 Safari/537.36")]
  ++ (if x_requested then [("x-requested-with", "XMLHttpRequest")] else [])
  ++ (if content_type then [("content-type", "application/x-www-form-urlencoded; charset=UTF-8")] else [])

/-- `RequestClient.resolve_code` (src/main.py:86-94): POST to the
`resolveCode` URL; the network outcome of that one request is the
oracle argument. -/
def resolve_code (HOST : String) (hasHandler : Bool) (code_value : String)
    (o : Outcome) : TransferResponse × List (String × String) :=
  let _ := [("code", code_value)]
  let _ := build_headers HOST true true
  let _ := build_cookies
  safe_request hasHandler (build_base_urls HOST).1 o

/-- `RequestClient.upload_file` (src/main.py:96-114). -/
def upload_file_op (HOST : String) (hasHandler : Bool)
    (code_value file_name : String) (file_size : Nat) (o : Outcome) :
    TransferResponse × List (String × String) :=
  let _ := [("name", file_name), ("code", code_value), ("hash", ""),
            ("size", toString file_size), ("fileName", file_name)]
  let _ := build_headers HOST false false
  safe_request hasHandler (build_base_urls HOST).2.1 o

/-- `RequestClient.get_file_list` (src/main.py:116-121). -/
def get_file_list (HOST : String) (hasHandler : Bool) (code_value : String)
    (o : Outcome) : TransferResponse × List (String × String) :=
  let _ := [("code", code_value), ("order", "ctime"), ("asc", "desc")]
  let _ := build_headers HOST true false
  safe_request hasHandler (build_base_urls HOST).2.2.1 o

/-- `RequestClient.download_file` (src/main.py:123-132). -/
def download_file_op (HOST : String) (hasHandler : Bool) (file_ids : String)
    (o : Outcome) : TransferResponse × List (String × String) :=
  let _ := [("fileIds", file_ids)]
  let _ := build_headers HOST false true
  safe_request hasHandler (build_base_urls HOST).2.2.2 o

/-! ## Decimal / hexadecimal rendering

Python's `str(n)` and f-string `{n}` for non-negative integers, and the
`'%x' % n` rendering used by `ipaddress`.  Written with explicit fuel
(`fuel > n` always holds at the call sites) so that every definition is
structurally recursive and kernel-reducible. -/

/-- The ASCII digit of `n % 10`. -/
def decDigitChar (n : Nat) : Char := Char.ofNat (48 + n % 10)

/-- Accumulator worker for `decChars`; `fuel` bounds the recursion. -/
def decAux : Nat → Nat → List Char → List Char
  | 0, _, acc => acc
  | fuel + 1, n, acc =>
    let acc' := decDigitChar n :: acc
    if n < 10 then acc' else decAux fuel (n / 10) acc'

/-- Python `str(n)` for a natural number, as a character list. -/
def decChars (n : Nat) : List Char := decAux (n + 1) n []

/-- Python `str(n)` for a natural number. -/
def natStr (n : Nat) : String := ⟨decChars n⟩

/-- Numeric value of a decimal digit string (Python `int(s, 10)` on an
all-digit string). -/
def decValue (l : List Char) : Nat :=
  l.foldl (fun acc c => acc * 10 + (c.toNat - 48)) 0

/-- The lowercase ASCII hex digit of `n % 16`. -/
def hexDigitChar (n : Nat) : Char :=
  if n % 16 < 10 then Char.ofNat (48 + n % 16) else Char.ofNat (87 + n % 16)

/-- Accumulator worker for `hexChars`. -/
def hexAux : Nat → Nat → List Char → List Char
  | 0, _, acc => acc
  | fuel + 1, n, acc =>
    let acc' := hexDigitChar n :: acc
    if n < 16 then acc' else hexAux fuel (n / 16) acc'

/-- Python `'%x' % n` (lowercase, no leading zeros), as used by
`ipaddress` when rendering IPv6 hextets. -/
def hexChars (n : Nat) : List Char := hexAux (n + 1) n []

/-- Numeric value of a hex digit string (Python `int(s, 16)` on an
all-hex-digit string). -/
def hexValue (l : List Char) : Nat :=
  l.foldl (fun acc c =>
    acc * 16 + (if c.toNat ≥ 97 then c.toNat - 87
                else if c.toNat ≥ 65 then c.toNat - 55
                else c.toNat - 48)) 0

/-! ## Character classes and small string helpers -/

/-- Python `str.strip()` whitespace, on its ASCII subset
(space, `\t`, `\n`, `\r`, `\x0b`, `\x0c`). -/
def pyIsSpace (c : Char) : Bool :=
  c = ' ' || c = '\t' || c = '\n' || c = '\r' || c = '\x0b' || c = '\x0c'

/-- ASCII hex digit (the `_HEX_DIGITS` set of `ipaddress`). -/
def isHexDigitChar (c : Char) : Bool :=
  c.isDigit || ('a' ≤ c && c ≤ 'f') || ('A' ≤ c && c ≤ 'F')

/-- `[A-Za-z0-9]`, the alphanumeric class of the hostname regexes. -/
def isAlnumChar (c : Char) : Bool := c.isAlpha || c.isDigit

/-- Python `str.lower()` on its ASCII subset. -/
def pyLowerChar (c : Char) : Char :=
  if 'A' ≤ c && c ≤ 'Z' then Char.ofNat (c.toNat + 32) else c

/-- Strip characters satisfying `p` from both ends of a list
(Python `str.strip(...)`). -/
def stripWhile (p : Char → Bool) (l : List Char) : List Char :=
  ((l.dropWhile p).reverse.dropWhile p).reverse

/-- Python `s.strip()` on a character list. -/
def pyStripL (l : List Char) : List Char := stripWhile pyIsSpace l

/-- Python `s.strip()` on a string. -/
def pyStrip (s : String) : String := ⟨pyStripL s.data⟩

/-- Python `s.split(sep)` for a one-character separator: `""` splits to
`[""]`, and every separator occurrence starts a new (possibly empty)
part. -/
def splitOnChar (sep : Char) : List Char → List (List Char)
  | [] => [[]]
  | c :: rest =>
    match splitOnChar sep rest with
    | [] => [[]]
    | h :: t => if c = sep then [] :: h :: t else (c :: h) :: t

/-- The part of `l` after the last occurrence of `sep`
(`l.rsplit(sep, 1)[-1]` when `sep ∈ l`, all of `l` otherwise). -/
def afterLast (sep : Char) (l : List Char) : List Char :=
  (l.reverse.takeWhile (· ≠ sep)).reverse

/-- The part of `l` before the last occurrence of `sep`
(`l.rsplit(sep, 1)[0]` when `sep ∈ l`). -/
def beforeLast (sep : Char) (l : List Char) : List Char :=
  ((l.reverse.dropWhile (· ≠ sep)).drop 1).reverse

/-- Index of the last occurrence of `c` in `l` (Python `l.rfind(c)`,
with `none` for "not found"). -/
def lastIndexOf (c : Char) (l : List Char) : Option Nat :=
  match l.reverse.findIdx? (· = c) with
  | none => none
  | some j => some (l.length - 1 - j)

/-- The ten ASCII digit characters (proof infrastructure: every
character of `decChars n` belongs to this list). -/
def digitChars : List Char := ['0', '1', '2', '3', '4', '5', '6', '7', '8', '9']

/-- The characters a canonical `a.b.c.d:port` string is built from. -/
def hostChars : List Char := digitChars ++ ['.', ':']

/-! ## File-name helpers (`os.path`, src/main.py)

The names that reach these helpers are bare file names (the source
applies them to `os.path.basename` output or to names it synthesised
itself), so the embedding covers the separator-free behaviour of
`os.path`; directory separators are still honoured, drive-letter
syntax (`C:`) is outside the modelled domain. -/

/-- `os.path.splitext` on a character list: split at the last dot,
unless every character before that dot is itself a dot (so `.bashrc`
has no extension). -/
def splitextL (p : List Char) : List Char × List Char :=
  match lastIndexOf '.' p with
  | none => (p, [])
  | some i =>
    if (p.take i).any (fun c => c ≠ '.') then (p.take i, p.drop i) else (p, [])

/-- `os.path.splitext` on a string. -/
def splitext (p : String) : String × String :=
  let q := splitextL p.data
  (⟨q.1⟩, ⟨q.2⟩)

/-- `os.path.basename`: everything after the last path separator. -/
def basename (p : String) : String :=
  ⟨(p.data.reverse.takeWhile (fun c => ¬(c = '/' ∨ c = '\\'))).reverse⟩

/-! ## Host validator (`src/utils.py:27-129`)

`normalize_host` pipes the raw input through `str.strip`, a scheme
check, `urllib.parse.urlsplit`, a userinfo split, `_split_host_port`
and `_validate_and_normalize_host` (which first tries
`ipaddress.ip_address`).  Each stage is embedded below.  The
`_checknetloc` step of `urlsplit` (which can raise only for certain
non-ASCII netlocs, via NFKC normalization) is not modelled; every
input appearing in a theorem is ASCII, where `_checknetloc` never
raises. -/

/-- The character class `[A-Za-z0-9+.-]` of the scheme regex, which is
also `urllib.parse.scheme_chars`. -/
def isSchemeChar (c : Char) : Bool := c.isAlpha || c.isDigit || c = '+' || c = '.' || c = '-'

/-- Matcher for the part of `^[A-Za-z][A-Za-z0-9+.-]*://` after the
first character: class characters up to a `:`, which must be followed
by `//`.  (`:` is not in the class, so the first `:` decides.) -/
def schemeTail : List Char → Bool
  | [] => false
  | c :: rest => if c = ':' then rest.take 2 = ['/', '/'] else isSchemeChar c && schemeTail rest

/-- `re.match(r"^[A-Za-z][A-Za-z0-9+.-]*://", s)` (src/utils.py:37). -/
def matchesSchemeRe : List Char → Bool
  | [] => false
  | c :: rest => c.isAlpha && schemeTail rest

/-- The bytes `urlsplit` removes everywhere (`\t`, `\r`, `\n`). -/
def urlUnsafeChar (c : Char) : Bool := c = '\t' || c = '\r' || c = '\n'

/-- Scheme detection of `urlsplit` when the first character `c` is an
ASCII letter: if the part before the first `:` consists of scheme
characters, drop the scheme and the `:`. -/
def schemeSplitFrom (c : Char) (rest : List Char) : List Char :=
  match rest.findIdx? (· = ':') with
  | none => c :: rest
  | some j => if (rest.take j).all isSchemeChar then rest.drop (j + 1) else c :: rest

/-- The scheme-stripping step of `urlsplit` (`i = url.find(':')`,
`if i > 0 and url[0].isascii() and url[0].isalpha(): ...`). -/
def detectScheme : List Char → List Char
  | [] => []
  | c :: rest => if c.isAlpha then schemeSplitFrom c rest else c :: rest

/-- The characters that end the netloc of a `//`-URL. -/
def isNetlocDelim (c : Char) : Bool := c = '/' || c = '?' || c = '#'

/-- `urllib.parse.urlsplit`, restricted to the two fields
`normalize_host` reads (netloc and path): removes `\t\r\n`, strips a
well-formed scheme, takes the netloc up to the first `/?#` when the
URL starts with `//` (raising — `.error` — on an unbalanced bracket),
and cuts fragment and query off the remainder to obtain the path. -/
def urlsplit_netloc_path (url0 : List Char) : Except Unit (List Char × List Char) :=
  let url1 := url0.filter (fun c => !urlUnsafeChar c)
  let url2 := detectScheme url1
  if url2.take 2 = ['/', '/'] then
    let rest := url2.drop 2
    let netloc := rest.takeWhile (fun c => !isNetlocDelim c)
    let tail := rest.dropWhile (fun c => !isNetlocDelim c)
    if (netloc.contains '[' && !netloc.contains ']')
        || (netloc.contains ']' && !netloc.contains '[') then .error ()
    else .ok (netloc, (tail.takeWhile (· ≠ '#')).takeWhile (· ≠ '?'))
  else
    .ok ([], (url2.takeWhile (· ≠ '#')).takeWhile (· ≠ '?'))

/-- `ipaddress._parse_octet`: a decimal octet is 1-3 ASCII digits, no
leading zero (unless it is exactly `0`), with value at most 255. -/
def parse_octet (s : List Char) : Option Nat :=
  if s = [] then none
  else if !(s.all Char.isDigit) then none
  else if s.length > 3 then none
  else if s.length > 1 ∧ s.head? = some '0' then none
  else
    let v := decValue s
    if v > 255 then none else some v

/-- `ipaddress.IPv4Address` parsing: exactly 4 octets separated by dots. -/
def ipv4_parse (host : List Char) : Option (Nat × Nat × Nat × Nat) :=
  match splitOnChar '.' host with
  | [a, b, c, d] =>
    match parse_octet a, parse_octet b, parse_octet c, parse_octet d with
    | some va, some vb, some vc, some vd => some (va, vb, vc, vd)
    | _, _, _, _ => none
  | _ => none

/-- `str(IPv4Address(...))` — dotted decimal, which is also its
`compressed` form. -/
def ipv4_render (q : Nat × Nat × Nat × Nat) : List Char :=
  decChars q.1 ++ '.' :: decChars q.2.1 ++ '.' :: decChars q.2.2.1 ++ '.' :: decChars q.2.2.2

/-- `ipaddress._parse_hextet`: 1-4 hex digits. -/
def parse_hextet (s : List Char) : Option Nat :=
  if ¬ s.all isHexDigitChar then none
  else if s.length > 4 then none
  else if s = [] then none
  else some (hexValue s)

/-- Left fold of hextets into the 128-bit integer
(`ip_int = (ip_int << 16) | parse_hextet(...)`). -/
def foldHextets (ps : List (List Char)) (init : Nat) : Option Nat :=
  ps.foldl (fun acc p =>
    match acc with
    | none => none
    | some v => (parse_hextet p).map (fun h => v * 65536 + h)) (some init)

/-- `ipaddress.IPv6Address._ip_int_from_string`: split on `:`, replace
an embedded IPv4 tail by two hextets, locate the (at most one) `::`,
check the `^::` / `::$` edge conditions, and fold the hextets around
the skipped zero block. -/
def ipv6_addr_int (addr : List Char) : Option Nat :=
  if addr = [] then none
  else
    let parts0 := splitOnChar ':' addr
    if parts0.length < 3 then none
    else
      let parts1 : Option (List (List Char)) :=
        match parts0.getLast? with
        | none => none
        | some lastPart =>
          if lastPart.contains '.' then
            match ipv4_parse lastPart with
            | some (a, b, c, d) =>
              let v := ((a * 256 + b) * 256 + c) * 256 + d
              some (parts0.dropLast ++ [hexChars (v / 65536), hexChars (v % 65536)])
            | none => none
          else some parts0
      match parts1 with
      | none => none
      | some parts =>
        if parts.length > 9 then none
        else
          match (List.range parts.length).filter
              (fun i => decide (0 < i ∧ i + 1 < parts.length ∧ parts.getD i [] = [])) with
          | [] =>
            if parts.length ≠ 8 then none
            else if parts.headD [] = [] then none
            else if parts.getLast? = some [] then none
            else foldHextets parts 0
          | [i] =>
            let headEmpty : Bool := parts.headD [] == []
            let lastEmpty : Bool := parts.getLast? == some []
            if headEmpty && !(i == 1) then none
            else if lastEmpty && !(i + 2 == parts.length) then none
            else
              let partsHi := if headEmpty then i - 1 else i
              let partsLo :=
                if lastEmpty then parts.length - i - 2 else parts.length - i - 1
              if 8 ≤ partsHi + partsLo then none
              else
                let skipped := 8 - (partsHi + partsLo)
                match foldHextets (parts.take partsHi) 0 with
                | none => none
                | some hi =>
                  foldHextets (parts.drop (parts.length - partsLo)) (hi * 65536 ^ skipped)
          | _ => none

/-- The 8 hextets of a 128-bit address, rendered in lowercase hex
without leading zeros. -/
def ipv6_hextets (ip : Nat) : List (List Char) :=
  (List.range 8).map (fun i => hexChars ((ip / (65536 ^ (7 - i))) % 65536))

/-- State step of `ipaddress._compress_hextets`'s scan for the best
(first, longest) run of `"0"` hextets: state is
`(bestLen, bestStart, curLen, curStart)`. -/
def bestRunStep (st : Nat × Nat × Nat × Option Nat) (p : Nat × List Char) :
    Nat × Nat × Nat × Option Nat :=
  let (bl, bs, cl, cs) := st
  if p.2 = ['0'] then
    let cs' := cs.getD p.1
    let cl' := cl + 1
    if cl' > bl then (cl', cs', cl', some cs') else (bl, bs, cl', some cs')
  else (bl, bs, 0, none)

/-- The best run of zero hextets: `(start, length)`. -/
def bestRun (hx : List (List Char)) : Nat × Nat :=
  let st := hx.enum.foldl bestRunStep (0, 0, 0, none)
  (st.2.1, st.1)

/-- `ipaddress._compress_hextets`: replace the best zero run (when it
is longer than one hextet) by an empty part, patching the ends so the
join produces `::`. -/
def compress_hextets (hx : List (List Char)) : List (List Char) :=
  let (bs, bl) := bestRun hx
  if bl > 1 then
    let hx1 := if bs + bl = hx.length then hx ++ [[]] else hx
    let hx2 := hx1.take bs ++ [] :: hx1.drop (bs + bl)
    if bs = 0 then [] :: hx2 else hx2
  else hx

/-- `IPv6Address(...).compressed`, including a scope suffix. -/
def ipv6_render (ip : Nat) (scope : Option (List Char)) : List Char :=
  let core := List.intercalate [':'] (compress_hextets (ipv6_hextets ip))
  match scope with
  | none => core
  | some sc => core ++ '%' :: sc

/-- `IPv6Address._split_scope_id` + address parsing: split at the first
`%`; a present scope must be non-empty and contain no further `%`. -/
def ipv6_parse (full : List Char) : Option (Nat × Option (List Char)) :=
  let addr := full.takeWhile (· ≠ '%')
  match full.dropWhile (· ≠ '%') with
  | [] => (ipv6_addr_int addr).map (fun ip => (ip, none))
  | c :: sc =>
    if (c == '%') && !sc.isEmpty && !sc.contains '%' then
      (ipv6_addr_int addr).map (fun ip => (ip, some sc))
    else none

/-- `ipaddress.ip_address(host)` followed by `.compressed`
(src/utils.py:99-101): try IPv4, then IPv6; `none` models the
`ValueError` that sends `_validate_and_normalize_host` to its
hostname branch. -/
def ip_address_compressed (host : List Char) : Option (List Char) :=
  match ipv4_parse host with
  | some q => some (ipv4_render q)
  | none =>
    match ipv6_parse host with
    | some (ip, scope) => some (ipv6_render ip scope)
    | none => none

/-- The bracketed branch of `_split_host_port`
(regex `^\[([^\]]+)\](?::(\d+))?$`, src/utils.py:78-84). -/
def bracketParse (n : List Char) : Option (List Char × Option Nat) :=
  match n with
  | '[' :: rest =>
    let inner := rest.takeWhile (· ≠ ']')
    (match rest.dropWhile (· ≠ ']') with
     | ']' :: tail =>
       if inner = [] then none
       else
         match tail with
         | [] => some (inner, none)
         | ':' :: ds =>
           if !ds.isEmpty && ds.all Char.isDigit then some (inner, some (decValue ds))
           else none
         | _ => none
     | _ => none)
  | _ => none

/-- `_split_host_port` (src/utils.py:75-95): bracketed hosts via the
regex; two or more colons pass through unsplit; exactly one colon
splits off a digit-only port; `none` models the `(None, None)`
failure return. -/
def split_host_port (netloc : List Char) : Option (List Char × Option Nat) :=
  let n := pyStripL netloc
  if n.head? = some '[' then bracketParse n
  else if 2 ≤ n.count ':' then some (n, none)
  else if n.contains ':' then
    let port_s := afterLast ':' n
    if !port_s.isEmpty && port_s.all Char.isDigit then
      some (beforeLast ':' n, some (decValue port_s))
    else none
  else some (n, none)

/-- One label of the hostname check: the regex
`^[A-Za-z0-9](?:[A-Za-z0-9-]{0,61}[A-Za-z0-9])?$` (src/utils.py:126). -/
def labelOk (l : List Char) : Bool :=
  match l with
  | [] => false
  | [c] => isAlnumChar c
  | c :: rest =>
    match rest.getLast? with
    | none => false
    | some lastc =>
      isAlnumChar c && rest.dropLast.length ≤ 61
        && rest.dropLast.all (fun x => isAlnumChar x || x = '-') && isAlnumChar lastc

/-- `_validate_and_normalize_host` (src/utils.py:98-129): a string that
parses as an IP address is returned in compressed form; otherwise the
lowercased string must pass the DNS-hostname checks (no whitespace, no
slashes, length at most 253, characters in `[A-Za-z0-9.-]`, no empty
label, at least two labels, each label at most 63 characters, matching
the label regex) and is returned as-is. -/
def validate_and_normalize_host (host : List Char) : Bool × List Char :=
  match ip_address_compressed host with
  | some comp => (true, comp)
  | none =>
    let h := host.map pyLowerChar
    if h.any pyIsSpace then (false, [])
    else if h.contains '/' || h.contains '\\' then (false, [])
    else if h.length > 253 then (false, [])
    else if h.isEmpty || !(h.all (fun c => isAlnumChar c || c = '.' || c = '-')) then (false, [])
    else
      let labels := splitOnChar '.' h
      if labels.any List.isEmpty then (false, [])
      else if labels.length < 2 then (false, [])
      else if labels.any (fun lbl => decide (lbl.length > 63) || !labelOk lbl) then (false, [])
      else (true, h)

/-- `normalize_host` (src/utils.py:27-72) on a character list: the full
validation pipeline.  `.error` is the uncaught `ValueError` that
`urlsplit` raises on an unbalanced bracket; `.ok (false, [])` is the
`(False, "")` rejection; `.ok (true, h)` the acceptance with the
normalized host (with `:port` re-attached when a port was given). -/
def normalize_host_core (raw : List Char) : Except Unit (Bool × List Char) :=
  let s0 := pyStripL raw
  if s0 = [] then .ok (false, [])
  else
    let s := stripWhile
      (fun c => c = ' ' || c = '\t' || c = '\r' || c = '\n'
        || c = '<' || c = '>' || c = '"' || c = '\'') s0
    match urlsplit_netloc_path (if matchesSchemeRe s then s else '/' :: '/' :: s) with
    | .error e => .error e
    | .ok (netloc0, path) =>
      let netloc1 := pyStripL netloc0
      let netloc2 := if netloc1 = [] then pyStripL (path.takeWhile (· ≠ '/')) else netloc1
      let netloc3 := if netloc2.contains '@' then pyStripL (afterLast '@' netloc2) else netloc2
      if netloc3 = [] then .ok (false, [])
      else
        match split_host_port netloc3 with
        | none => .ok (false, [])
        | some (host0, port) =>
          let host1 := pyStripL host0
          if host1 = [] then .ok (false, [])
          else
            let host2 := if host1.getLast? = some '.' then host1.dropLast else host1
            let portBad : Bool :=
              match port with
              | some p => decide (p < 1 ∨ 65535 < p)
              | none => false
            if portBad then .ok (false, [])
            else
              let vn := validate_and_normalize_host host2
              if ¬ vn.1 then .ok (false, [])
              else
                match port with
                | none => .ok (true, vn.2)
                | some p => .ok (true, vn.2 ++ ':' :: decChars p)

/-- `normalize_host` on the Python interface: `None` input is rejected
up front; otherwise the core pipeline runs on the string. -/
def normalize_host (raw : Option String) : Except Unit (Bool × String) :=
  match raw with
  | none => .ok (false, "")
  | some s => (normalize_host_core s.data).map (fun r => (r.1, ⟨r.2⟩))

/-! ## Upload orchestrator (`App._upload_async_core`, src/main.py:557-602)

The server is an oracle `respOf : String → TransferResponse` mapping
the effective upload name of an attempt to the uniform response of that
attempt (network exceptions already appear here as the synthetic
status-500 response produced by `safe_request`).  The two draws of
`get_filename_suffix()` that a text upload performs (one in
`_upload_async_core` for `origin_name`, one inside `upload_file` for
the attempt-0 name) are the oracle strings `s0` and `s1`. -/

/-- The exact server collision message
(`"中转上传文件中已存在同名文件"`, src/main.py:587). -/
def collision_msg : String := "中转上传文件中已存在同名文件"

/-- `_next_name` (src/main.py:561-563): `base(n)ext`. -/
def next_name (name : String) (n : Nat) : String :=
  let be := splitext name
  be.1 ++ "(" ++ natStr n ++ ")" ++ be.2

/-- The synthesized text-upload name `文本<suffix>.txt`
(src/main.py:551,568). -/
def text_file_name (suffix : String) : String := "文本" ++ suffix ++ ".txt"

/-- The name `App.upload_file` (src/main.py:541-555) uploads under:
the override when given, else the basename of the file path, else a
freshly synthesised text name. -/
def upload_file_name (file_path : Option String) (override_name : Option String)
    (fresh_suffix : String) : String :=
  match file_path with
  | some p => override_name.getD (basename p)
  | none => override_name.getD (text_file_name fresh_suffix)

/-- `origin_name` as computed at the top of `_upload_async_core`
(src/main.py:565-568). -/
def upload_origin_name (file_path : Option String) (s0 : String) : String :=
  match file_path with
  | some p => basename p
  | none => text_file_name s0

/-- Terminal outcome of one upload orchestration. -/
inductive UpOutcome where
  | ok (name : String)
  | failMsg (name : String) (msg : Option JVal)
  | servFail (name : String)
deriving DecidableEq, Repr

/-- Classification of one attempt's response (src/main.py:579-593):
`none` means the name-collision case (`status 200`, `success` falsy,
`msg` equal to the documented collision string), which is the only case
that retries; every other case is a terminal outcome. -/
def upload_classify (resp : TransferResponse) (name : String) : Option UpOutcome :=
  if resp.status_code = 200 then
    if pyTruthy (jGet resp.json "success") then some (.ok name)
    else if msgEq (jGet resp.json "msg") collision_msg then none
    else some (.failMsg name (jGet resp.json "msg"))
  else some (.servFail name)

/-- The effective name of attempt `attempt`: the attempt-0 name for the
first try, `_next_name origin attempt` afterwards (src/main.py:571-575). -/
def attempt_name (origin attempt0 : String) (attempt : Nat) : String :=
  if attempt = 0 then attempt0 else next_name origin attempt

/-- The `while True` retry loop of `_upload_async_core`: returns the
list of names attempted (in order) and the terminal outcome; `none`
only on fuel exhaustion (the source loops unboundedly). -/
def upload_loop (respOf : String → TransferResponse) (origin attempt0 : String) :
    Nat → Nat → Option (List String × UpOutcome)
  | 0, _ => none
  | fuel + 1, attempt =>
    let name := attempt_name origin attempt0 attempt
    match upload_classify (respOf name) name with
    | some o => some ([name], o)
    | none =>
      match upload_loop respOf origin attempt0 fuel (attempt + 1) with
      | none => none
      | some (ns, o) => some (name :: ns, o)

/-- `App._upload_async_core` (src/main.py:557-602): compute the origin
name, then run the collision-retry loop from attempt 0. -/
def upload_async_core (respOf : String → TransferResponse)
    (file_path : Option String) (s0 s1 : String) (fuel : Nat) :
    Option (List String × UpOutcome) :=
  upload_loop respOf (upload_origin_name file_path s0)
    (upload_file_name file_path none s1) fuel 0

/-! ## Application state (`App`, src/main.py:204-886)

The Tk widgets the session logic touches are modelled as fields of an
`AppState` record: entry field content and editability, the two action
buttons' enabled state, whether the unlock button shows its default
"确定/submit" affordance (versus the "重置/reset" one), the drop area,
the code shown in the window title, and the log.  Callbacks scheduled
on the UI thread with `self.after(0, ...)` are applied in order, which
matches their execution order on the Tk main loop. -/

/-- The mutable state of the `App` object together with its widgets. -/
structure AppState where
  locked : Bool
  monitor_thread_started : Bool
  /-- `self.stop_event` (a `threading.Event`): `true` = set. -/
  stop_event : Bool
  current_code : String
  /-- Content of the code entry field. -/
  entry_code : String
  /-- `true` when the entry field is editable (`state="normal"`). -/
  entry_enabled : Bool
  /-- `true` when the unlock button shows the default 确定/submit
  affordance, `false` when it shows 重置/reset. -/
  btn_unlock_default : Bool
  btn_confirm_enabled : Bool
  btn_download_enabled : Bool
  drop_enabled : Bool
  /-- The code displayed in the window title (`""` = base title). -/
  title_code : String
  /-- `self._idle_logged`. -/
  idle_logged : Bool
  logs : List String
deriving DecidableEq, Repr

/-- `App.append_log` (timestamp prefix omitted). -/
def append_log (st : AppState) (m : String) : AppState :=
  { st with logs := st.logs ++ [m] }

/-- The state after `App.__init__` + the initial `set_locked(True)`
(src/main.py:207-232). -/
def init_app : AppState :=
  { locked := true, monitor_thread_started := false, stop_event := false
    current_code := "", entry_code := "", entry_enabled := true
    btn_unlock_default := true, btn_confirm_enabled := false
    btn_download_enabled := false, drop_enabled := false, title_code := ""
    idle_logged := false, logs := [] }

/-- `App.set_locked` (src/main.py:439-449). -/
def set_locked (st : AppState) (locked : Bool) : AppState :=
  let st := { st with
    locked := locked,
    btn_confirm_enabled := !locked, btn_download_enabled := !locked }
  if locked then
    { st with drop_enabled := false, btn_unlock_default := true, title_code := "" }
  else { st with drop_enabled := true }

/-- `App._set_unlock_button_default` (src/main.py:862-863). -/
def set_unlock_button_default (st : AppState) : AppState :=
  { st with btn_unlock_default := true }

/-- `App._set_unlock_button_enabled` (src/main.py:858-860): show the
active code in the title and turn the button into 重置/reset. -/
def set_unlock_button_enabled (st : AppState) (code_value : String) : AppState :=
  { st with title_code := code_value, btn_unlock_default := false }

/-- `App.check_code` (src/main.py:507-531): one poll tick.  Returns
the state after the scheduled UI callbacks ran and the function's
return value (`false` makes `_monitor_check_loop` break). -/
def check_code (st : AppState) (code_value : String) (resp : TransferResponse) :
    AppState × Bool :=
  if resp.status_code = 200 then
    let json_data := resp.json
    if st.locked then
      if pyTruthy (jGet json_data "success") then
        let st := set_locked st false
        let st := append_log st "[验证] 成功！文本输入框、上传和拖拽区域已启用。"
        let st := set_unlock_button_enabled st code_value
        ({ st with entry_enabled := false }, true)
      else
        let st := append_log st ("[验证] 失败：" ++ pyStrGet (jGet json_data "msg"))
        ({ st with entry_code := "" }, false)
    else
      if ¬ pyTruthy (jGet json_data "success") then
        let st := append_log st "[验证] 失败！请重新输入验证码。"
        let st := set_locked st true
        let st := set_unlock_button_default st
        ({ st with entry_enabled := true, entry_code := "" }, false)
      else (st, true)
  else
    (append_log st "[验证] 失败！服务器故障或服务器地址错误。", true)

/-- `App.stop_monitor` (src/main.py:533-539). -/
def stop_monitor (st : AppState) : AppState :=
  let st := { st with stop_event := true }
  let st := set_locked st true
  let st := set_unlock_button_default st
  { st with entry_enabled := true, current_code := "", title_code := "" }

/-- `App._on_closing` (src/main.py:303-310): returns the state after
the close handler (the cancellation signal is set unconditionally) and
the code persisted to the configuration store by `save_code`. -/
def on_closing (st : AppState) : AppState × String :=
  let saved := if ¬ st.locked ∧ st.current_code ≠ "" then st.current_code else ""
  ({ st with stop_event := true }, saved)

/-- `App.on_reset_clicked` (src/main.py:865-876), with the transient
"重置中..." button text elided and the deferred
`_set_unlock_button_default` applied. -/
def on_reset_clicked (st : AppState) : AppState :=
  let st := append_log st "[验证] 正在重置验证码并锁定界面..."
  let st := stop_monitor st
  let st := { st with entry_enabled := true, entry_code := "" }
  let st := set_unlock_button_default st
  append_log st "[验证] 已重置，已恢复到待验证状态。"

/-- `App._monitor_check_loop`'s `while` body (src/main.py:483-502).
`resps` is the network oracle (the response to the `calls`-th
`resolve_code` request), `idleAbove` tells whether
`get_idle_seconds()` returned a value above `idle_threshold` at
iteration `n` (the float comparison is abstracted to its result).
Returns the final state and the number of `resolve_code` calls made;
`fuel` bounds the iterations of the unbounded source loop. -/
def monitor_loop (resps : Nat → TransferResponse) (idleAbove : Nat → Bool)
    (code_value : String) : Nat → AppState → Nat → Nat → AppState × Nat
  | 0, st, _, calls => (st, calls)
  | fuel + 1, st, n, calls =>
    if st.stop_event then (st, calls)
    else if idleAbove n then
      let st :=
        if !st.idle_logged then
          append_log { st with idle_logged := true }
            "[监控] 检测到用户已空闲超过 60 秒，暂停验证码轮询。"
        else st
      if st.stop_event then (st, calls)
      else monitor_loop resps idleAbove code_value fuel st (n + 1) calls
    else
      let st :=
        if st.idle_logged then
          append_log { st with idle_logged := false }
            "[监控] 检测到用户恢复活动，恢复验证码轮询。"
        else st
      let r := check_code st code_value (resps calls)
      if r.2 then monitor_loop resps idleAbove code_value fuel r.1 (n + 1) (calls + 1)
      else (r.1, calls + 1)

/-- `App._monitor_check_loop` (src/main.py:480-504): set
`current_code`, run the loop, and clear `monitor_thread_started` in
the `finally` block. -/
def monitor_check_loop (resps : Nat → TransferResponse) (idleAbove : Nat → Bool)
    (code_value : String) (fuel : Nat) (st : AppState) : AppState × Nat :=
  let r := monitor_loop resps idleAbove code_value fuel
    { st with current_code := code_value } 0 0
  ({ r.1 with monitor_thread_started := false }, r.2)

/-! ## Poll-loop lifecycle (`App.on_unlock_clicked`, src/main.py:464-478)

To state the single-active-loop invariant, the system state carries a
ghost count of currently running `_monitor_check_loop` worker threads.
`run_async` spawning a worker increments it; the worker's termination
(which coincides with the `finally` block clearing
`monitor_thread_started`) decrements it.  The worker's first action,
setting `current_code`, is applied at spawn time. -/

/-- App state plus the ghost count of live poll-loop workers. -/
structure SysState where
  app : AppState
  activeLoops : Nat
deriving DecidableEq, Repr

/-- The initial system state: fresh `App`, no worker. -/
def init_sys : SysState := { app := init_app, activeLoops := 0 }

/-- `App.on_unlock_clicked` (src/main.py:464-478).  `host_ok` is the
result of `ensure_host_configured` (whether `client.HOST` is a
non-blank string). -/
def on_unlock_clicked (host_ok : Bool) (st : SysState) : SysState :=
  if !host_ok then
    { st with
      app := append_log st.app
        "[配置] 未检测到服务器地址(HOST)，请先点击“配置地址”进行设置。" }
  else
    let code_value := pyStrip st.app.entry_code
    if code_value.length ≠ 6 then
      { st with app := append_log st.app "[验证] 验证码必须为6位数字，请检查。" }
    else if !st.app.monitor_thread_started then
      { app := append_log
          { st.app with
            monitor_thread_started := true, stop_event := false,
            current_code := code_value }
          "[验证] 已开始轮询验证。"
        activeLoops := st.activeLoops + 1 }
    else { st with app := append_log st.app "[验证] 已在轮询中。" }

/-- Termination of a running poll-loop worker: the `finally` block of
`_monitor_check_loop` clears `monitor_thread_started` and the thread
exits. -/
def loop_exit (st : SysState) : SysState :=
  if st.activeLoops = 0 then st
  else { app := { st.app with monitor_thread_started := false }
         activeLoops := st.activeLoops - 1 }

/-- The poll-loop lifecycle events. -/
inductive SysEv where
  | click (host_ok : Bool)
  | loopExit
deriving DecidableEq, Repr

/-- One lifecycle step. -/
def sys_step (st : SysState) : SysEv → SysState
  | .click h => on_unlock_clicked h st
  | .loopExit => loop_exit st

/-- A run of lifecycle events from a starting state. -/
def sys_run (st : SysState) (evs : List SysEv) : SysState := evs.foldl sys_step st

/-- The single-poll-loop invariant: at most one worker is alive, and
`monitor_thread_started` is set exactly while one is. -/
def sys_inv (st : SysState) : Prop :=
  st.activeLoops ≤ 1 ∧ (st.app.monitor_thread_started = true ↔ st.activeLoops = 1)

/-! ## Text decoding (`decode_response_content`, src/utils.py:139-146,
and `App.load_file_to_text_async`, src/main.py:828-856)

The five Python codecs are a `Codec` oracle.  The `utf-8` and
`latin-1` codecs are additionally implemented exactly (`utf8Decode`,
`latin1Decode`); theorems that depend on real codec behaviour pin the
oracle to these implementations by hypothesis.  `gbk`, `gb2312` and
`utf-16` are table-driven stdlib collaborators and stay abstract. -/

/-- The encodings tried by `decode_response_content`, in order. -/
inductive Enc where
  | utf8 | gbk | gb2312 | utf16 | latin1
deriving DecidableEq, Repr

/-- A family of byte decoders, one per encoding; `none` models a
`UnicodeDecodeError` (or any exception) from `content.decode(enc)`. -/
abbrev Codec := Enc → List Byte → Option String

/-- The encoding list of src/utils.py:140. -/
def encodings : List Enc := [.utf8, .gbk, .gb2312, .utf16, .latin1]

/-- The `for enc in encodings: try ... except: continue` loop: first
successful decode wins, `none` if every decode raises. -/
def tryEncodings (dec : Codec) : List Enc → List Byte → Option String
  | [], _ => none
  | e :: rest, content =>
    match dec e content with
    | some t => some t
    | none => tryEncodings dec rest content

/-- `decode_response_content` (src/utils.py:139-146). -/
def decode_response_content (dec : Codec) (content : List Byte) : Option String :=
  tryEncodings dec encodings content

/-- A UTF-8 continuation byte (`0x80`-`0xBF`). -/
def utf8Cont (b : Byte) : Bool := 128 ≤ b.val && b.val ≤ 191

/-- Strict UTF-8 decoding of a byte list (CPython's `bytes.decode('utf-8')`):
rejects stray continuations, overlong forms, surrogates and code
points above `U+10FFFF`. -/
def utf8Go : List Byte → Option (List Char)
  | [] => some []
  | b :: rest =>
    if b.val < 128 then (utf8Go rest).map (Char.ofNat b.val :: ·)
    else if b.val < 194 then none
    else if b.val < 224 then
      match rest with
      | b2 :: rest2 =>
        if utf8Cont b2 then
          (utf8Go rest2).map (Char.ofNat ((b.val - 192) * 64 + (b2.val - 128)) :: ·)
        else none
      | [] => none
    else if b.val < 240 then
      match rest with
      | b2 :: b3 :: rest3 =>
        let lo2 := if b.val = 224 then 160 else 128
        let hi2 := if b.val = 237 then 159 else 191
        if lo2 ≤ b2.val && b2.val ≤ hi2 && utf8Cont b3 then
          (utf8Go rest3).map
            (Char.ofNat (((b.val - 224) * 64 + (b2.val - 128)) * 64 + (b3.val - 128)) :: ·)
        else none
      | _ => none
    else if b.val < 245 then
      match rest with
      | b2 :: b3 :: b4 :: rest4 =>
        let lo2 := if b.val = 240 then 144 else 128
        let hi2 := if b.val = 244 then 143 else 191
        if lo2 ≤ b2.val && b2.val ≤ hi2 && utf8Cont b3 && utf8Cont b4 then
          (utf8Go rest4).map
            (Char.ofNat ((((b.val - 240) * 64 + (b2.val - 128)) * 64
              + (b3.val - 128)) * 64 + (b4.val - 128)) :: ·)
        else none
      | _ => none
    else none

/-- `content.decode('utf-8')`. -/
def utf8Decode (bs : List Byte) : Option String := (utf8Go bs).map (fun cs => ⟨cs⟩)

/-- `content.decode('latin-1')`: total — every byte maps to the code
point of its value. -/
def latin1Decode (bs : List Byte) : Option String :=
  some ⟨bs.map (fun b => Char.ofNat b.val)⟩

/-- The log message of the undecodable-file branch (src/main.py:844). -/
def load_decode_fail_msg : String := "[加载] 失败：无法解析文件编码。"

/-- The tail of `load_file_to_text_async`'s `ui_after_resp`
(src/main.py:839-849) after the decode result is known: on `none` the
text buffer is left untouched and the decode failure is reported; on
`some t` the buffer is replaced by `t`.  Returns (buffer, log line). -/
def load_apply (text : Option String) (buffer file_name : String) : String × String :=
  match text with
  | none => (buffer, load_decode_fail_msg)
  | some t => (t, "[加载] 完成，文件「" ++ file_name ++ "」已加载到文本输入框。")

/-- `ui_after_resp` of `App.load_file_to_text_async`
(src/main.py:834-854): non-200 responses leave the buffer untouched;
otherwise decode the content and apply the result. -/
def load_file_ui (dec : Codec) (resp : TransferResponse) (file_name buffer : String) :
    String × String :=
  if resp.status_code ≠ 200 then
    (buffer, "[加载] 失败！服务器返回状态码 " ++ natStr resp.status_code ++ "。")
  else load_apply (decode_response_content dec resp.content) buffer file_name

/-! ## Download writer (`App.download_files_async`, src/main.py:798-826)

The `for chunk in resp.iter_content(...)` / `f.write(chunk)` loop.  A
write failure (disk full, I/O error) is injected as `failAt = some k`:
the `k`-th call to `f.write` raises.  The result is the content the
file at `save_path` holds afterwards, plus whether an exception was
raised inside the `with open(...)` block. -/

/-- The write loop: empty chunks are skipped (`if chunk:`); a raise at
write `k` leaves the previously written bytes in the file. -/
def write_chunks : List (List Byte) → Nat → Option Nat → List Byte → List Byte × Bool
  | [], _, _, acc => (acc, false)
  | c :: rest, k, failAt, acc =>
    if c = [] then write_chunks rest k failAt acc
    else if failAt = some k then (acc, true)
    else write_chunks rest (k + 1) failAt (acc ++ c)

/-- `ui_after_resp` of `App.download_files_async` (src/main.py:805-823):
returns the file content on disk at the chosen path (`none` = no file
was created) and the log line.  `save_path = none` models the user
cancelling the save dialog; `exc_text` is the text of the injected
write exception. -/
def download_save_ui (resp : TransferResponse) (save_path : Option String)
    (failAt : Option Nat) (exc_text display_name : String) :
    Option (List Byte) × String :=
  if resp.status_code ≠ 200 then
    (none, "[下载] 失败！服务器返回状态码 " ++ natStr resp.status_code ++ "。")
  else
    match save_path with
    | none => (none, "[下载] 已取消保存「" ++ display_name ++ "」。")
    | some path =>
      let w := write_chunks resp.chunks 0 failAt []
      if w.2 then (some w.1, "[下载] 保存失败：" ++ exc_text)
      else (some w.1, "[下载] 完成，文件「" ++ display_name ++ "」已保存到：" ++ path)

/-! # Theorems -/

/-! ## List lemmas (infrastructure for the host-validator theorems) -/

theorem dropWhile_eq_self_of_forall {p : Char → Bool} :
    ∀ {l : List Char}, (∀ c ∈ l, p c = false) → l.dropWhile p = l
  | [], _ => rfl
  | c :: rest, h => by
    have hc := h c (by simp)
    simp [List.dropWhile_cons, hc]

theorem takeWhile_eq_self_of_forall {p : Char → Bool} :
    ∀ {l : List Char}, (∀ c ∈ l, p c = true) → l.takeWhile p = l
  | [], _ => rfl
  | c :: rest, h => by
    have hc := h c (by simp)
    have ih := takeWhile_eq_self_of_forall (l := rest)
      (fun x hx => h x (List.mem_cons_of_mem _ hx))
    simp [List.takeWhile_cons, hc, ih]

theorem dropWhile_eq_nil_of_forall {p : Char → Bool} :
    ∀ {l : List Char}, (∀ c ∈ l, p c = true) → l.dropWhile p = []
  | [], _ => rfl
  | c :: rest, h => by
    have hc := h c (by simp)
    have ih := dropWhile_eq_nil_of_forall (l := rest)
      (fun x hx => h x (List.mem_cons_of_mem _ hx))
    simp [List.dropWhile_cons, hc, ih]

theorem filter_eq_self_of_forall {p : Char → Bool} {l : List Char}
    (h : ∀ c ∈ l, p c = true) : l.filter p = l :=
  List.filter_eq_self.mpr h

theorem stripWhile_eq_self_of_forall {p : Char → Bool} {l : List Char}
    (h : ∀ c ∈ l, p c = false) : stripWhile p l = l := by
  unfold stripWhile
  rw [dropWhile_eq_self_of_forall h,
    dropWhile_eq_self_of_forall (fun c hc => h c (List.mem_reverse.mp hc)),
    List.reverse_reverse]

theorem takeWhile_append_stop {p : Char → Bool} {x : Char} (hx : p x = false) :
    ∀ {a b : List Char}, (∀ c ∈ a, p c = true) → (a ++ x :: b).takeWhile p = a
  | [], b, _ => by simp [List.takeWhile_cons, hx]
  | c :: a', b, h => by
    have hc := h c (by simp)
    have ih := takeWhile_append_stop hx (a := a') (b := b)
      (fun y hy => h y (List.mem_cons_of_mem _ hy))
    simp [List.takeWhile_cons, hc, ih]

theorem dropWhile_append_stop {p : Char → Bool} {x : Char} (hx : p x = false) :
    ∀ {a b : List Char}, (∀ c ∈ a, p c = true) → (a ++ x :: b).dropWhile p = x :: b
  | [], b, _ => by simp [List.dropWhile_cons, hx]
  | c :: a', b, h => by
    have hc := h c (by simp)
    have ih := dropWhile_append_stop hx (a := a') (b := b)
      (fun y hy => h y (List.mem_cons_of_mem _ hy))
    simp [List.dropWhile_cons, hc, ih]

theorem head?_append_left {l m : List Char} (h : l ≠ []) :
    (l ++ m).head? = l.head? := by
  cases l with
  | nil => exact absurd rfl h
  | cons c rest => rfl

theorem getLast?_append_right {l m : List Char} (h : m ≠ []) :
    (l ++ m).getLast? = m.getLast? := by
  induction l with
  | nil => rfl
  | cons c rest ih =>
    rw [List.cons_append, List.getLast?_cons, ih]
    cases m with
    | nil => exact absurd rfl h
    | cons y ys => simp [List.getLast?_cons]

theorem contains_eq_false_of_not_mem {c : Char} {l : List Char} (h : c ∉ l) :
    l.contains c = false := by
  simpa using h

theorem splitOnChar_ne_nil (sep : Char) : ∀ l : List Char, splitOnChar sep l ≠ []
  | [] => by simp [splitOnChar]
  | c :: rest => by
    have hne := splitOnChar_ne_nil sep rest
    simp only [splitOnChar]
    cases hs : splitOnChar sep rest with
    | nil => exact absurd hs hne
    | cons h t => by_cases hc : c = sep <;> simp [hc]

theorem splitOnChar_eq_single {sep : Char} :
    ∀ {l : List Char}, sep ∉ l → splitOnChar sep l = [l]
  | [], _ => rfl
  | c :: rest, h => by
    have hc : ¬ c = sep := fun hcs => h (by simp [hcs])
    have ih := splitOnChar_eq_single (l := rest)
      (fun hm => h (List.mem_cons_of_mem _ hm))
    simp [splitOnChar, ih, hc]

theorem splitOnChar_append_cons {sep : Char} :
    ∀ {a : List Char} (b : List Char), sep ∉ a →
      splitOnChar sep (a ++ sep :: b) = a :: splitOnChar sep b
  | [], b, _ => by
    simp only [List.nil_append, splitOnChar]
    cases hs : splitOnChar sep b with
    | nil => exact absurd hs (splitOnChar_ne_nil sep b)
    | cons h t => simp
  | c :: a', b, h => by
    have hc : ¬ c = sep := fun hcs => h (by simp [hcs])
    have ih := splitOnChar_append_cons (a := a') b
      (fun hm => h (List.mem_cons_of_mem _ hm))
    show splitOnChar sep (c :: (a' ++ sep :: b)) = (c :: a') :: splitOnChar sep b
    simp only [splitOnChar, ih]
    simp [hc]

theorem afterLast_append_cons {sep : Char} {a b : List Char} (h : sep ∉ b) :
    afterLast sep (a ++ sep :: b) = b := by
  unfold afterLast
  have hrev : (a ++ sep :: b).reverse = b.reverse ++ sep :: a.reverse := by
    simp
  rw [hrev, takeWhile_append_stop (by simp)
    (fun c hc => by
      simp only [decide_eq_true_eq]
      exact fun hcs => h (hcs ▸ List.mem_reverse.mp hc)),
    List.reverse_reverse]

theorem beforeLast_append_cons {sep : Char} {a b : List Char} (h : sep ∉ b) :
    beforeLast sep (a ++ sep :: b) = a := by
  unfold beforeLast
  have hrev : (a ++ sep :: b).reverse = b.reverse ++ sep :: a.reverse := by
    simp
  rw [hrev, dropWhile_append_stop (by simp)
    (fun c hc => by
      simp only [decide_eq_true_eq]
      exact fun hcs => h (hcs ▸ List.mem_reverse.mp hc))]
  simp

/-! ## Decimal-rendering lemmas -/

theorem decAux_fuel_irrel (n : Nat) :
    ∀ (f g : Nat) (acc : List Char), n < f → n < g →
      decAux f n acc = decAux g n acc := by
  induction n using Nat.strong_induction_on with
  | _ n ih =>
    intro f g acc hf hg
    cases f with
    | zero => omega
    | succ f' =>
      cases g with
      | zero => omega
      | succ g' =>
        simp only [decAux]
        by_cases h10 : n < 10
        · simp [h10]
        · simp only [if_neg h10]
          have hd : n / 10 < n := Nat.div_lt_self (by omega) (by omega)
          exact ih (n / 10) hd f' g' _ (by omega) (by omega)

theorem decAux_acc_eq (n : Nat) :
    ∀ (f : Nat) (acc : List Char), n < f →
      decAux f n acc = decAux f n [] ++ acc := by
  induction n using Nat.strong_induction_on with
  | _ n ih =>
    intro f acc hf
    cases f with
    | zero => omega
    | succ f' =>
      simp only [decAux]
      by_cases h10 : n < 10
      · simp [h10]
      · simp only [if_neg h10]
        have hd : n / 10 < n := Nat.div_lt_self (by omega) (by omega)
        have hlt : n / 10 < f' := by omega
        rw [ih (n / 10) hd f' _ hlt, ih (n / 10) hd f' [decDigitChar n] hlt,
          List.append_assoc]
        simp

theorem decChars_unfold (n : Nat) :
    decChars n
      = if n < 10 then [decDigitChar n] else decChars (n / 10) ++ [decDigitChar n] := by
  by_cases h10 : n < 10
  · simp only [decChars, decAux, if_pos h10]
  · have hd : n / 10 < n := Nat.div_lt_self (by omega) (by omega)
    simp only [decChars, decAux, if_neg h10]
    rw [decAux_acc_eq (n / 10) n [decDigitChar n] (by omega)]
    congr 1
    exact decAux_fuel_irrel (n / 10) n (n / 10 + 1) [] (by omega) (by omega)

theorem decDigitChar_mem (n : Nat) : decDigitChar n ∈ digitChars := by
  have h : ∀ m, m < 10 → Char.ofNat (48 + m) ∈ digitChars := by decide
  have h2 := h (n % 10) (Nat.mod_lt _ (by omega))
  simpa [decDigitChar] using h2

theorem mem_decChars_digit : ∀ n : Nat, ∀ c ∈ decChars n, c ∈ digitChars := by
  intro n
  induction n using Nat.strong_induction_on with
  | _ n ih =>
    intro c hc
    rw [decChars_unfold] at hc
    by_cases h10 : n < 10
    · rw [if_pos h10] at hc
      simp at hc
      subst hc
      exact decDigitChar_mem n
    · rw [if_neg h10] at hc
      rcases List.mem_append.mp hc with h | h
      · exact ih (n / 10) (Nat.div_lt_self (by omega) (by omega)) c h
      · simp at h
        subst h
        exact decDigitChar_mem n

theorem decChars_ne_nil (n : Nat) : decChars n ≠ [] := by
  rw [decChars_unfold]
  by_cases h10 : n < 10 <;> simp [h10]

theorem head?_decChars_ne_zero : ∀ n : Nat, 1 ≤ n → (decChars n).head? ≠ some '0' := by
  intro n
  induction n using Nat.strong_induction_on with
  | _ n ih =>
    intro h1
    rw [decChars_unfold]
    by_cases h10 : n < 10
    · rw [if_pos h10]
      have hne : ∀ m, 1 ≤ m → m < 10 → decDigitChar m ≠ '0' := by decide
      simp [hne n h1 h10]
    · rw [if_neg h10]
      rw [head?_append_left (decChars_ne_nil (n / 10))]
      exact ih (n / 10) (Nat.div_lt_self (by omega) (by omega))
        ((Nat.one_le_div_iff (by omega)).mpr (by omega))

theorem decChars_length_le : ∀ (k n : Nat), n < 10 ^ k → 1 ≤ k →
    (decChars n).length ≤ k := by
  intro k
  induction k with
  | zero => intro n _ hk; omega
  | succ k ih =>
    intro n hn _
    rw [decChars_unfold]
    by_cases h10 : n < 10
    · simp [h10]
    · rw [if_neg h10, List.length_append]
      have hk1 : 1 ≤ k := by
        by_contra hk0
        have hk : k = 0 := by omega
        subst hk
        simp [pow_succ, pow_zero] at hn
        omega
      have hn' : n / 10 < 10 ^ k := by
        rw [Nat.div_lt_iff_lt_mul (by omega)]
        calc n < 10 ^ (k + 1) := hn
        _ = 10 ^ k * 10 := by ring
      have := ih (n / 10) hn' hk1
      simp
      omega

theorem decValue_append_singleton (l : List Char) (c : Char) :
    decValue (l ++ [c]) = decValue l * 10 + (c.toNat - 48) := by
  simp [decValue, List.foldl_append]

theorem decValue_decChars : ∀ n : Nat, decValue (decChars n) = n := by
  intro n
  induction n using Nat.strong_induction_on with
  | _ n ih =>
    rw [decChars_unfold]
    by_cases h10 : n < 10
    · rw [if_pos h10]
      have htn : ∀ m, m < 10 → (decDigitChar m).toNat = 48 + m := by decide
      simp [decValue, htn n h10]
    · rw [if_neg h10, decValue_append_singleton]
      have hd : n / 10 < n := Nat.div_lt_self (by omega) (by omega)
      rw [ih (n / 10) hd]
      have htn : (decDigitChar n).toNat = 48 + n % 10 := by
        have h : ∀ m, m < 10 → (decDigitChar m).toNat = 48 + m := by decide
        have h2 := h (n % 10) (by omega)
        have heq : decDigitChar n = decDigitChar (n % 10) := by
          unfold decDigitChar
          congr 1
          omega
        rw [heq, h2]
      rw [htn]
      have := Nat.div_add_mod n 10
      omega

theorem parse_octet_decChars (n : Nat) (h : n ≤ 255) :
    parse_octet (decChars n) = some n := by
  have hdig : (decChars n).all Char.isDigit = true := by
    rw [List.all_eq_true]
    intro c hc
    have hm := mem_decChars_digit n c hc
    have hall : ∀ c ∈ digitChars, Char.isDigit c = true := by decide
    exact hall c hm
  have hlen3 : ¬ ((decChars n).length > 3) := by
    have := decChars_length_le 3 n (by omega) (by omega)
    omega
  have hlead : ¬ ((decChars n).length > 1 ∧ (decChars n).head? = some '0') := by
    rintro ⟨hl, hh⟩
    by_cases h10 : n < 10
    · rw [decChars_unfold, if_pos h10] at hl
      simp at hl
    · exact head?_decChars_ne_zero n (by omega) hh
  have hval : ¬ (decValue (decChars n) > 255) := by
    rw [decValue_decChars]
    omega
  simp [parse_octet, decChars_ne_nil n, hdig, hlen3, hlead, hval,
    decValue_decChars]
  omega

/-! ## Dotted-quad lemmas -/

theorem host_char_facts : ∀ c ∈ hostChars, pyIsSpace c = false
    ∧ urlUnsafeChar c = false ∧ isNetlocDelim c = false
    ∧ c ≠ '[' ∧ c ≠ ']' ∧ c ≠ '@' ∧ c.isAlpha = false
    ∧ (c = ' ' || c = '\t' || c = '\r' || c = '\n'
        || c = '<' || c = '>' || c = '"' || c = '\'') = false := by decide

theorem digit_or_dot_mem_hostChars {c : Char} (h : c ∈ digitChars ∨ c = '.') :
    c ∈ hostChars := by
  rcases h with h | rfl
  · exact List.mem_append_left _ h
  · exact List.mem_append_right _ (by decide)

theorem not_mem_decChars {c : Char} (hc : c ∉ digitChars) (n : Nat) :
    c ∉ decChars n :=
  fun h => hc (mem_decChars_digit n c h)

theorem ipv4_render_structure (a b c d : Nat) :
    ipv4_render (a, b, c, d)
      = decChars a ++ '.' :: (decChars b ++ '.' :: (decChars c ++ '.' :: decChars d)) := by
  simp [ipv4_render, List.append_assoc]

theorem mem_ipv4_render (a b c d : Nat) :
    ∀ x ∈ ipv4_render (a, b, c, d), x ∈ digitChars ∨ x = '.' := by
  intro x hx
  rw [ipv4_render_structure] at hx
  simp only [List.mem_append, List.mem_cons] at hx
  rcases hx with h | rfl | h | rfl | h | rfl | h
  · exact Or.inl (mem_decChars_digit a x h)
  · exact Or.inr rfl
  · exact Or.inl (mem_decChars_digit b x h)
  · exact Or.inr rfl
  · exact Or.inl (mem_decChars_digit c x h)
  · exact Or.inr rfl
  · exact Or.inl (mem_decChars_digit d x h)

theorem colon_not_mem_ipv4_render (a b c d : Nat) :
    ':' ∉ ipv4_render (a, b, c, d) := by
  intro h
  rcases mem_ipv4_render a b c d ':' h with h2 | h2
  · revert h2; decide
  · revert h2; decide

theorem ipv4_render_ne_nil (a b c d : Nat) : ipv4_render (a, b, c, d) ≠ [] := by
  rw [ipv4_render_structure]
  intro h
  rcases List.append_eq_nil.mp h with ⟨h1, _⟩
  exact decChars_ne_nil a h1

theorem head?_ipv4_render (a b c d : Nat) :
    (ipv4_render (a, b, c, d)).head? = (decChars a).head? := by
  rw [ipv4_render_structure]
  exact head?_append_left (decChars_ne_nil a)

theorem head?_ipv4_render_ne_bracket (a b c d : Nat) :
    (ipv4_render (a, b, c, d)).head? ≠ some '[' := by
  rw [head?_ipv4_render]
  obtain ⟨x, t, hx⟩ := List.exists_cons_of_ne_nil (decChars_ne_nil a)
  rw [hx]
  have hmem : x ∈ digitChars := mem_decChars_digit a x (by rw [hx]; simp)
  have hne : x ≠ '[' := by
    intro h
    subst h
    revert hmem
    decide
  simp [hne]

theorem getLast?_ipv4_render_ne_dot (a b c d : Nat) :
    (ipv4_render (a, b, c, d)).getLast? ≠ some '.' := by
  rw [ipv4_render_structure]
  have h1 : (decChars a ++ '.' :: (decChars b ++ '.' :: (decChars c ++ '.' :: decChars d))).getLast?
      = (decChars d).getLast? := by
    rw [getLast?_append_right (by simp)]
    rw [show ('.' :: (decChars b ++ '.' :: (decChars c ++ '.' :: decChars d)))
        = ['.'] ++ (decChars b ++ '.' :: (decChars c ++ '.' :: decChars d)) from rfl]
    rw [getLast?_append_right (by
      intro h
      rcases List.append_eq_nil.mp h with ⟨h1, _⟩
      exact decChars_ne_nil b h1)]
    rw [getLast?_append_right (by simp)]
    rw [show ('.' :: (decChars c ++ '.' :: decChars d)) = ['.'] ++ (decChars c ++ '.' :: decChars d) from rfl]
    rw [getLast?_append_right (by
      intro h
      rcases List.append_eq_nil.mp h with ⟨h1, _⟩
      exact decChars_ne_nil c h1)]
    rw [getLast?_append_right (by simp)]
    rw [show ('.' :: decChars d) = ['.'] ++ decChars d from rfl]
    rw [getLast?_append_right (decChars_ne_nil d)]
  rw [h1]
  have hlast := List.getLast_mem (decChars_ne_nil d)
  rw [List.getLast?_eq_getLast _ (decChars_ne_nil d)]
  have hmem := mem_decChars_digit d _ hlast
  intro h
  simp only [Option.some.injEq] at h
  rw [h] at hmem
  revert hmem
  decide

theorem ipv4_parse_ipv4_render (a b c d : Nat)
    (ha : a ≤ 255) (hb : b ≤ 255) (hc : c ≤ 255) (hd : d ≤ 255) :
    ipv4_parse (ipv4_render (a, b, c, d)) = some (a, b, c, d) := by
  unfold ipv4_parse
  rw [ipv4_render_structure]
  rw [splitOnChar_append_cons _ (not_mem_decChars (by decide) a),
    splitOnChar_append_cons _ (not_mem_decChars (by decide) b),
    splitOnChar_append_cons _ (not_mem_decChars (by decide) c),
    splitOnChar_eq_single (not_mem_decChars (by decide) d)]
  simp [parse_octet_decChars a ha, parse_octet_decChars b hb,
    parse_octet_decChars c hc, parse_octet_decChars d hd]

theorem validate_ipv4_render (a b c d : Nat)
    (ha : a ≤ 255) (hb : b ≤ 255) (hc : c ≤ 255) (hd : d ≤ 255) :
    validate_and_normalize_host (ipv4_render (a, b, c, d))
      = (true, ipv4_render (a, b, c, d)) := by
  unfold validate_and_normalize_host ip_address_compressed
  rw [ipv4_parse_ipv4_render a b c d ha hb hc hd]

/-! ## Pipeline lemmas for `normalize_host_core` -/

theorem contains_eq_true_of_mem {c : Char} {l : List Char} (h : c ∈ l) :
    l.contains c = true := by
  simpa using h

theorem pyStripL_eq_self {w : List Char} (hw : ∀ c ∈ w, c ∈ hostChars) :
    pyStripL w = w :=
  stripWhile_eq_self_of_forall (fun c hc => (host_char_facts c (hw c hc)).1)

theorem urlsplit_simple (w : List Char) (hw : ∀ c ∈ w, c ∈ hostChars) :
    urlsplit_netloc_path ('/' :: '/' :: w) = .ok (w, []) := by
  have hfilter : ('/' :: '/' :: w).filter (fun c => !urlUnsafeChar c)
      = '/' :: '/' :: w := by
    apply filter_eq_self_of_forall
    intro c hc
    rcases List.mem_cons.mp hc with rfl | hc2
    · decide
    rcases List.mem_cons.mp hc2 with rfl | hcw
    · decide
    · simp [(host_char_facts c (hw c hcw)).2.1]
  have hds : detectScheme ('/' :: '/' :: w) = '/' :: '/' :: w := by
    simp [detectScheme]
  have htw : w.takeWhile (fun c => !isNetlocDelim c) = w :=
    takeWhile_eq_self_of_forall (fun c hc => by
      simp [(host_char_facts c (hw c hc)).2.2.1])
  have hdw : w.dropWhile (fun c => !isNetlocDelim c) = [] :=
    dropWhile_eq_nil_of_forall (fun c hc => by
      simp [(host_char_facts c (hw c hc)).2.2.1])
  have hlb : '[' ∉ w := fun hm => (host_char_facts _ (hw _ hm)).2.2.2.1 rfl
  have hrb : ']' ∉ w := fun hm => (host_char_facts _ (hw _ hm)).2.2.2.2.1 rfl
  simp [urlsplit_netloc_path, hfilter, hds, htw, hdw, hlb, hrb]

theorem split_host_port_no_colon (w : List Char) (hw : ∀ c ∈ w, c ∈ hostChars)
    (hhead : w.head? ≠ some '[') (hcolon : ':' ∉ w) :
    split_host_port w = some (w, none) := by
  have hstrip := pyStripL_eq_self hw
  have hcount : w.count ':' = 0 := List.count_eq_zero.mpr hcolon
  simp [split_host_port, hstrip, hhead, hcount, hcolon]

theorem split_host_port_with_port (w : List Char) (p : Nat)
    (hw : ∀ c ∈ w, c ∈ hostChars) (hcolon : ':' ∉ w)
    (hhead : w.head? ≠ some '[') :
    split_host_port (w ++ ':' :: decChars p) = some (w, some p) := by
  have hnchars : ∀ c ∈ w ++ ':' :: decChars p, c ∈ hostChars := by
    intro c hc
    rcases List.mem_append.mp hc with h | h
    · exact hw c h
    rcases List.mem_cons.mp h with rfl | h2
    · decide
    · exact digit_or_dot_mem_hostChars (Or.inl (mem_decChars_digit p c h2))
  have hstrip := pyStripL_eq_self hnchars
  have hheadn : (w ++ ':' :: decChars p).head? ≠ some '[' := by
    cases w with
    | nil => simp
    | cons x rest =>
      rw [List.cons_append]
      simp only [List.head?_cons, ne_eq, Option.some.injEq]
      intro h
      exact hhead (by simp [h])
  have hcount : (w ++ ':' :: decChars p).count ':' = 1 := by
    rw [List.count_append, List.count_eq_zero.mpr hcolon, List.count_cons_self,
      List.count_eq_zero.mpr (not_mem_decChars (by decide) p)]
  have hcont : (w ++ ':' :: decChars p).contains ':' = true :=
    contains_eq_true_of_mem (List.mem_append_right _ (List.mem_cons_self _ _))
  have hafter : afterLast ':' (w ++ ':' :: decChars p) = decChars p :=
    afterLast_append_cons (not_mem_decChars (by decide) p)
  have hbefore : beforeLast ':' (w ++ ':' :: decChars p) = w :=
    beforeLast_append_cons (not_mem_decChars (by decide) p)
  have hne : (decChars p).isEmpty = false := by
    obtain ⟨x, t, hx⟩ := List.exists_cons_of_ne_nil (decChars_ne_nil p)
    rw [hx]
    rfl
  have hdig : (decChars p).all Char.isDigit = true := by
    rw [List.all_eq_true]
    intro c hc
    have hm := mem_decChars_digit p c hc
    have hall : ∀ c ∈ digitChars, Char.isDigit c = true := by decide
    exact hall c hm
  simp [split_host_port, hstrip, hheadn, hhead, hcount, hcont, hafter, hbefore,
    hne, hdig, decValue_decChars]

theorem normalize_host_core_quad (a b c d : Nat)
    (ha : a ≤ 255) (hb : b ≤ 255) (hc : c ≤ 255) (hd : d ≤ 255) :
    normalize_host_core (ipv4_render (a, b, c, d))
      = .ok (true, ipv4_render (a, b, c, d)) := by
  have hchars : ∀ x ∈ ipv4_render (a, b, c, d), x ∈ hostChars := fun x hx =>
    digit_or_dot_mem_hostChars (mem_ipv4_render a b c d x hx)
  have hne : ipv4_render (a, b, c, d) ≠ [] := ipv4_render_ne_nil a b c d
  have hstrip : pyStripL (ipv4_render (a, b, c, d)) = ipv4_render (a, b, c, d) :=
    pyStripL_eq_self hchars
  have hstrip2 : stripWhile
      (fun c => c = ' ' || c = '\t' || c = '\r' || c = '\n'
        || c = '<' || c = '>' || c = '"' || c = '\'') (ipv4_render (a, b, c, d))
      = ipv4_render (a, b, c, d) :=
    stripWhile_eq_self_of_forall
      (fun c hcm => (host_char_facts c (hchars c hcm)).2.2.2.2.2.2.2)
  have hscheme : matchesSchemeRe (ipv4_render (a, b, c, d)) = false := by
    obtain ⟨x, t, hx⟩ := List.exists_cons_of_ne_nil hne
    rw [hx]
    have halpha : x.isAlpha = false :=
      (host_char_facts x (hchars x (by rw [hx]; simp))).2.2.2.2.2.2.1
    simp [matchesSchemeRe, halpha]
  have hurl := urlsplit_simple (ipv4_render (a, b, c, d)) hchars
  have hat : '@' ∉ ipv4_render (a, b, c, d) :=
    fun hm => (host_char_facts _ (hchars _ hm)).2.2.2.2.2.1 rfl
  have hsp := split_host_port_no_colon (ipv4_render (a, b, c, d)) hchars
    (head?_ipv4_render_ne_bracket a b c d) (colon_not_mem_ipv4_render a b c d)
  have hlast := getLast?_ipv4_render_ne_dot a b c d
  have hval := validate_ipv4_render a b c d ha hb hc hd
  simp [normalize_host_core, hstrip, hne, hstrip2, hscheme, hurl, hat, hsp,
    hlast, hval]

theorem normalize_host_core_quad_port (a b c d p : Nat)
    (ha : a ≤ 255) (hb : b ≤ 255) (hc : c ≤ 255) (hd : d ≤ 255)
    (hp1 : 1 ≤ p) (hp2 : p ≤ 65535) :
    normalize_host_core (ipv4_render (a, b, c, d) ++ ':' :: decChars p)
      = .ok (true, ipv4_render (a, b, c, d) ++ ':' :: decChars p) := by
  have hqchars : ∀ x ∈ ipv4_render (a, b, c, d), x ∈ hostChars := fun x hx =>
    digit_or_dot_mem_hostChars (mem_ipv4_render a b c d x hx)
  have hchars : ∀ x ∈ ipv4_render (a, b, c, d) ++ ':' :: decChars p,
      x ∈ hostChars := by
    intro x hx
    rcases List.mem_append.mp hx with h | h
    · exact hqchars x h
    rcases List.mem_cons.mp h with rfl | h2
    · decide
    · exact digit_or_dot_mem_hostChars (Or.inl (mem_decChars_digit p x h2))
  have hqne : ipv4_render (a, b, c, d) ≠ [] := ipv4_render_ne_nil a b c d
  have hne : ipv4_render (a, b, c, d) ++ ':' :: decChars p ≠ [] := by
    intro h
    exact hqne (List.append_eq_nil.mp h).1
  have hstripq : pyStripL (ipv4_render (a, b, c, d)) = ipv4_render (a, b, c, d) :=
    pyStripL_eq_self hqchars
  have hstrip : pyStripL (ipv4_render (a, b, c, d) ++ ':' :: decChars p)
      = ipv4_render (a, b, c, d) ++ ':' :: decChars p :=
    pyStripL_eq_self hchars
  have hstrip2 : stripWhile
      (fun c => c = ' ' || c = '\t' || c = '\r' || c = '\n'
        || c = '<' || c = '>' || c = '"' || c = '\'')
      (ipv4_render (a, b, c, d) ++ ':' :: decChars p)
      = ipv4_render (a, b, c, d) ++ ':' :: decChars p :=
    stripWhile_eq_self_of_forall
      (fun c hcm => (host_char_facts c (hchars c hcm)).2.2.2.2.2.2.2)
  have hscheme : matchesSchemeRe (ipv4_render (a, b, c, d) ++ ':' :: decChars p)
      = false := by
    obtain ⟨x, t, hx⟩ := List.exists_cons_of_ne_nil hqne
    have halpha : x.isAlpha = false :=
      (host_char_facts x (hqchars x (by rw [hx]; simp))).2.2.2.2.2.2.1
    rw [hx, List.cons_append]
    simp [matchesSchemeRe, halpha]
  have hurl := urlsplit_simple (ipv4_render (a, b, c, d) ++ ':' :: decChars p) hchars
  have hat : '@' ∉ ipv4_render (a, b, c, d) ++ ':' :: decChars p :=
    fun hm => (host_char_facts _ (hchars _ hm)).2.2.2.2.2.1 rfl
  have hsp := split_host_port_with_port (ipv4_render (a, b, c, d)) p hqchars
    (colon_not_mem_ipv4_render a b c d) (head?_ipv4_render_ne_bracket a b c d)
  have hlast := getLast?_ipv4_render_ne_dot a b c d
  have hval := validate_ipv4_render a b c d ha hb hc hd
  have hp0 : ¬ (p = 0) := by omega
  have hplt : ¬ (65535 < p) := by omega
  simp [normalize_host_core, hstrip, hne, hstrip2, hscheme, hurl, hat, hsp,
    hstripq, hqne, hlast, hval, hp0, hplt]

/-- Claim C1: for every Transport Client operation (`resolve_code`,
`upload_file`, `get_file_list`, `download_file`), when the underlying
network call raises any exception the call returns (rather than
propagating) a synthetic response with `status_code = 500`, empty
parsed body, empty byte content and an empty chunk stream, and the
injected error callback is invoked exactly once with the exception and
the requested URL; moreover on a non-raising response whose body is
not parseable JSON, the parsed-body accessor yields the empty mapping
instead of raising. -/
theorem transport_uniform_failure :
    (∀ HOST code e,
      resolve_code HOST true code (.raises e)
        = ({ status_code := 500, json := [], content := [], chunks := [] },
           [(e, (build_base_urls HOST).1)]))
  ∧ (∀ HOST code name size e,
      upload_file_op HOST true code name size (.raises e)
        = ({ status_code := 500, json := [], content := [], chunks := [] },
           [(e, (build_base_urls HOST).2.1)]))
  ∧ (∀ HOST code e,
      get_file_list HOST true code (.raises e)
        = ({ status_code := 500, json := [], content := [], chunks := [] },
           [(e, (build_base_urls HOST).2.2.1)]))
  ∧ (∀ HOST ids e,
      download_file_op HOST true ids (.raises e)
        = ({ status_code := 500, json := [], content := [], chunks := [] },
           [(e, (build_base_urls HOST).2.2.2)]))
  ∧ (∀ hasHandler url r, r.body_json = none →
      (safe_request hasHandler url (.responds r)).1.json = []) := by
  refine ⟨fun _ _ _ => rfl, fun _ _ _ _ _ => rfl, fun _ _ _ => rfl,
    fun _ _ _ => rfl, fun hasHandler url r hr => ?_⟩
  simp [safe_request, hr]

/-- Witness for C1: a concrete timeout on `resolve_code` and a concrete
unparseable 200 response. -/
theorem transport_uniform_failure_witness :
    resolve_code "h.com" true "123456" (.raises "ConnectTimeout")
      = ({ status_code := 500, json := [], content := [], chunks := [] },
         [("ConnectTimeout", "http://h.com/cloudcenter/conversionNew/resolveCode")])
  ∧ (safe_request true "http://h.com/cloudcenter/conversionNew/resolveCode"
      (.responds { status_code := 200, body_json := none, content := [], chunks := [] })).1.json
      = [] := by
  constructor
  · rw [transport_uniform_failure.1 "h.com" "123456" "ConnectTimeout"]; decide
  · exact transport_uniform_failure.2.2.2.2 true _ _ rfl

/-- Claim C5: closing the session always sets the cancellation signal,
and persists the current code exactly when the session is unlocked with
a non-empty current code at close time, persisting the empty string
otherwise; in particular closing unlocked with code `123456` persists
`123456`, and closing locked persists `""`. -/
theorem close_persists_code_iff_unlocked :
    (∀ st : AppState,
      (on_closing st).1.stop_event = true
      ∧ (on_closing st).2
          = (if ¬ st.locked ∧ st.current_code ≠ "" then st.current_code else ""))
  ∧ (on_closing { init_app with locked := false, current_code := "123456" }).2 = "123456"
  ∧ (on_closing { init_app with locked := true, current_code := "123456" }).2 = "" := by
  refine ⟨fun st => ⟨rfl, rfl⟩, by decide, by decide⟩

/-- Claim C9 (code bug): when a write raises part-way through saving a
downloaded stream, the partially written file is left on disk — the
failing input is a 200 response streaming chunks `[0x61]` and `[0x62]`
whose second `f.write` call raises: the failure is logged, but the file
at the chosen path still holds the first chunk (neither absent nor
complete), contradicting the all-or-nothing/cleanup requirement. -/
theorem download_partial_file_left_on_disk :
    (download_save_ui ⟨200, [], [], [[0x61], [0x62]]⟩
      (some "C:/save/f.txt") (some 1) "OSError 28" "f.txt").1 = some [0x61]
  ∧ (download_save_ui ⟨200, [], [], [[0x61], [0x62]]⟩
      (some "C:/save/f.txt") (some 1) "OSError 28" "f.txt").1 ≠ none
  ∧ (download_save_ui ⟨200, [], [], [[0x61], [0x62]]⟩
      (some "C:/save/f.txt") (some 1) "OSError 28" "f.txt").1 ≠ some [0x61, 0x62]
  ∧ (download_save_ui ⟨200, [], [], [[0x61], [0x62]]⟩
      (some "C:/save/f.txt") (some 1) "OSError 28" "f.txt").2
      = "[下载] 保存失败：OSError 28" := by
  refine ⟨by decide, by decide, by decide, by decide⟩

/-- Claim C2: attempt 0 of an upload uses the original name unchanged;
exactly the status-200 / `success` falsy / `msg` = collision-string
responses retry, with the attempt counter incremented and the name
rewritten to `base(attemptIndex)ext`; the loop stops at the first
non-collision outcome; and for a server reporting collisions for
`f.txt` and `f(1).txt` and success for `f(2).txt`, the orchestration
makes exactly 3 attempts and ends with effective name `f(2).txt`. -/
theorem upload_collision_retry :
    (∀ p s0 s1 : String,
      upload_origin_name (some p) s0 = basename p
      ∧ upload_file_name (some p) none s1 = basename p)
  ∧ (∀ resp name, upload_classify resp name = none ↔
      (resp.status_code = 200 ∧ pyTruthy (jGet resp.json "success") = false
        ∧ msgEq (jGet resp.json "msg") collision_msg = true))
  ∧ (∀ origin attempt0 : String, ∀ n : Nat,
      attempt_name origin attempt0 (n + 1)
        = (splitext origin).1 ++ "(" ++ natStr (n + 1) ++ ")" ++ (splitext origin).2)
  ∧ (∀ respOf origin attempt0 fuel attempt,
      upload_classify (respOf (attempt_name origin attempt0 attempt))
          (attempt_name origin attempt0 attempt) = none →
      upload_loop respOf origin attempt0 (fuel + 1) attempt
        = (upload_loop respOf origin attempt0 fuel (attempt + 1)).map
            (fun r => (attempt_name origin attempt0 attempt :: r.1, r.2)))
  ∧ (∀ respOf origin attempt0 fuel attempt o,
      upload_classify (respOf (attempt_name origin attempt0 attempt))
          (attempt_name origin attempt0 attempt) = some o →
      upload_loop respOf origin attempt0 (fuel + 1) attempt
        = some ([attempt_name origin attempt0 attempt], o))
  ∧ (∀ s0 s1 : String,
      upload_async_core
        (fun name =>
          if name = "f.txt" ∨ name = "f(1).txt"
          then ⟨200, [("success", .b false), ("msg", .s collision_msg)], [], []⟩
          else ⟨200, [("success", .b true)], [], []⟩)
        (some "f.txt") s0 s1 10
        = some (["f.txt", "f(1).txt", "f(2).txt"], .ok "f(2).txt")) := by
  refine ⟨fun p s0 s1 => ⟨rfl, rfl⟩, ?_, fun origin attempt0 n => rfl, ?_, ?_, fun s0 s1 => rfl⟩
  · intro resp name
    by_cases h1 : resp.status_code = 200
    · by_cases h2 : pyTruthy (jGet resp.json "success") = true
      · simp [upload_classify, h1, h2]
      · by_cases h3 : msgEq (jGet resp.json "msg") collision_msg = true
        · simp [upload_classify, h1, h2, h3]
        · simp [upload_classify, h1, h2, h3]
    · simp [upload_classify, h1]
  · intro respOf origin attempt0 fuel attempt h
    cases hrec : upload_loop respOf origin attempt0 fuel (attempt + 1) with
    | none => simp [upload_loop, h, hrec]
    | some r => simp [upload_loop, h, hrec]
  · intro respOf origin attempt0 fuel attempt o h
    simp [upload_loop, h]

/-- Witness for C2: a server that succeeds at once terminates the loop
after a single attempt with the unchanged name. -/
theorem upload_collision_retry_witness :
    upload_loop (fun _ => ⟨200, [("success", .b true)], [], []⟩) "g.txt" "g.txt" 1 0
      = some (["g.txt"], .ok "g.txt") :=
  upload_collision_retry.2.2.2.2.1 (fun _ => ⟨200, [("success", .b true)], [], []⟩)
    "g.txt" "g.txt" 0 0 (.ok "g.txt") (by decide)

/-- Counterexample to C4 as stated: a non-200 `resolveCode` response
while polling does not abort the loop — `check_code` returns `True`
(continue) on a status-500 response from the locked state, and three
successive status-500 responses yield three `resolve_code` calls. -/
theorem poll_non200_continues_counterexample :
    (check_code init_app "123456" ⟨500, [], [], []⟩).2 = true
  ∧ (monitor_check_loop (fun _ => ⟨500, [], [], []⟩) (fun _ => false) "123456" 3
      init_app).2 = 3 := by
  refine ⟨by decide, by decide⟩

/-- Claim C4 (amended): while polling (locked), a 200 response with
falsy `success` stops the loop (`check_code` returns `False`) and
clears the code-entry field; a non-200 response is logged as a server
failure and the loop continues polling — it recurses to the next
iteration rather than aborting. -/
theorem poll_transitions :
    (∀ st code resp, st.locked = true → resp.status_code = 200 →
      pyTruthy (jGet resp.json "success") = false →
      (check_code st code resp).2 = false
      ∧ (check_code st code resp).1.entry_code = "")
  ∧ (∀ st code resp, resp.status_code ≠ 200 →
      check_code st code resp
        = (append_log st "[验证] 失败！服务器故障或服务器地址错误。", true))
  ∧ (∀ (resps : Nat → TransferResponse) (idle : Nat → Bool) code fuel st n calls,
      st.stop_event = false → st.idle_logged = false → idle n = false →
      st.locked = true → (resps calls).status_code = 200 →
      pyTruthy (jGet (resps calls).json "success") = false →
      monitor_loop resps idle code (fuel + 1) st n calls
        = ((check_code st code (resps calls)).1, calls + 1))
  ∧ (∀ (resps : Nat → TransferResponse) (idle : Nat → Bool) code fuel st n calls,
      st.stop_event = false → st.idle_logged = false → idle n = false →
      (resps calls).status_code ≠ 200 →
      monitor_loop resps idle code (fuel + 1) st n calls
        = monitor_loop resps idle code fuel
            (append_log st "[验证] 失败！服务器故障或服务器地址错误。") (n + 1)
            (calls + 1)) := by
  refine ⟨?_, ?_, ?_, ?_⟩
  · intro st code resp h1 h2 h3
    exact ⟨by simp [check_code, h1, h2, h3], by simp [check_code, h1, h2, h3, append_log]⟩
  · intro st code resp h
    simp [check_code, h]
  · intro resps idle code fuel st n calls hstop hil hidle hl h200 hs
    have h5 : (check_code st code (resps calls)).2 = false := by
      simp [check_code, hl, h200, hs]
    simp [monitor_loop, hstop, hil, hidle, h5]
  · intro resps idle code fuel st n calls hstop hil hidle h
    have h5 : check_code st code (resps calls)
        = (append_log st "[验证] 失败！服务器故障或服务器地址错误。", true) := by
      simp [check_code, h]
    simp [monitor_loop, hstop, hil, hidle, h5]

/-- Witness for the amended C4: a concrete invalid-code tick from the
locked state returns `False` (stop). -/
theorem poll_transitions_witness :
    (check_code init_app "123456"
      ⟨200, [("success", .b false), ("msg", .s "验证码错误")], [], []⟩).2 = false :=
  (poll_transitions.1 init_app "123456"
    ⟨200, [("success", .b false), ("msg", .s "验证码错误")], [], []⟩
    rfl rfl (by decide)).1

/-- Counterexample to C8 as stated: on the poll-tick
`Unlocked → Locked` transition the stored session code is NOT cleared —
after a 200/`success=false` tick from an unlocked state with
`current_code = "123456"`, `current_code` still holds `"123456"`. -/
theorem poll_tick_lock_keeps_code_counterexample :
    (check_code { init_app with locked := false, current_code := "123456" } "123456"
      ⟨200, [("success", .b false)], [], []⟩).1.current_code = "123456"
  ∧ (check_code { init_app with locked := false, current_code := "123456" } "123456"
      ⟨200, [("success", .b false)], [], []⟩).1.current_code ≠ "" := by
  refine ⟨by decide, by decide⟩

/-- Claim C8 (amended): on both `Unlocked → Locked` triggers (a poll
tick with falsy `success`, and the explicit reset) the code-entry field
is cleared and re-enabled and the default submit affordance is
restored; the stored session code (`current_code`) is cleared by the
explicit reset only — the poll-tick path leaves it at its previous
value. -/
theorem unlocked_to_locked_effects :
    (∀ st code resp, st.locked = false → resp.status_code = 200 →
      pyTruthy (jGet resp.json "success") = false →
      (check_code st code resp).1.locked = true
      ∧ (check_code st code resp).1.entry_code = ""
      ∧ (check_code st code resp).1.entry_enabled = true
      ∧ (check_code st code resp).1.btn_unlock_default = true
      ∧ (check_code st code resp).1.current_code = st.current_code
      ∧ (check_code st code resp).2 = false)
  ∧ (∀ st, (on_reset_clicked st).locked = true
      ∧ (on_reset_clicked st).entry_code = ""
      ∧ (on_reset_clicked st).entry_enabled = true
      ∧ (on_reset_clicked st).btn_unlock_default = true
      ∧ (on_reset_clicked st).current_code = "") := by
  constructor
  · intro st code resp h1 h2 h3
    refine ⟨?_, ?_, ?_, ?_, ?_, ?_⟩ <;>
      simp [check_code, h1, h2, h3, append_log, set_locked, set_unlock_button_default]
  · intro st
    refine ⟨?_, ?_, ?_, ?_, ?_⟩ <;>
      simp [on_reset_clicked, stop_monitor, append_log, set_locked,
        set_unlock_button_default]

/-- Witness for the amended C8: a concrete unlocked state put through a
falsy poll tick ends locked. -/
theorem unlocked_to_locked_effects_witness :
    (check_code { init_app with locked := false, current_code := "654321" } "654321"
      ⟨200, [], [], []⟩).1.locked = true :=
  (unlocked_to_locked_effects.1 { init_app with locked := false, current_code := "654321" }
    "654321" ⟨200, [], [], []⟩ rfl rfl (by decide)).1

/-- One lifecycle event preserves the single-poll-loop invariant. -/
theorem sys_step_preserves_inv (st : SysState) (ev : SysEv) (h : sys_inv st) :
    sys_inv (sys_step st ev) := by
  obtain ⟨h1, h2⟩ := h
  cases ev with
  | click hostOk =>
    cases hostOk with
    | false => exact ⟨h1, by simpa [sys_step, on_unlock_clicked, append_log] using h2⟩
    | true =>
      by_cases hlen : (pyStrip st.app.entry_code).length ≠ 6
      · exact ⟨by simpa [sys_step, on_unlock_clicked, hlen] using h1,
          by simpa [sys_step, on_unlock_clicked, hlen, append_log] using h2⟩
      · by_cases hs : st.app.monitor_thread_started = true
        · exact ⟨by simpa [sys_step, on_unlock_clicked, hlen, hs] using h1,
            by simpa [sys_step, on_unlock_clicked, hlen, hs, append_log] using h2⟩
        · have h0 : st.activeLoops = 0 := by
            rcases Nat.lt_or_ge st.activeLoops 1 with hlt | hge
            · omega
            · exact absurd (h2.2 (by omega)) hs
          constructor
          · simp [sys_step, on_unlock_clicked, hlen, hs, h0, append_log]
          · simp [sys_step, on_unlock_clicked, hlen, hs, h0, append_log]
  | loopExit =>
    by_cases h0 : st.activeLoops = 0
    · simpa [sys_step, loop_exit, h0] using ⟨h1, h2⟩
    · have he : st.activeLoops = 1 := by omega
      constructor
      · simp [sys_step, loop_exit, h0, he]
      · simp [sys_step, loop_exit, h0, he]

/-- The invariant holds along every run from an invariant state. -/
theorem sys_run_preserves_inv (evs : List SysEv) :
    ∀ st : SysState, sys_inv st → sys_inv (sys_run st evs) := by
  induction evs with
  | nil => exact fun st h => h
  | cons ev rest ih =>
    intro st h
    exact ih (sys_step st ev) (sys_step_preserves_inv st ev h)

/-- Claim C6: at most one poll loop is active at any time — along every
sequence of unlock clicks and loop terminations from the initial state
the live-worker count stays at most 1; a click while the loop flag is
set (host configured, 6-digit code entered) only appends a log line,
changing neither the worker count nor the loop's code; and no click
ever changes the worker count while the flag is set. -/
theorem single_active_poll_loop :
    (∀ evs : List SysEv, (sys_run init_sys evs).activeLoops ≤ 1)
  ∧ (∀ st : SysState, st.app.monitor_thread_started = true →
      (pyStrip st.app.entry_code).length = 6 →
      on_unlock_clicked true st
        = { st with app := append_log st.app "[验证] 已在轮询中。" })
  ∧ (∀ (st : SysState) (h : Bool), st.app.monitor_thread_started = true →
      (sys_step st (.click h)).activeLoops = st.activeLoops) := by
  refine ⟨?_, ?_, ?_⟩
  · intro evs
    exact (sys_run_preserves_inv evs init_sys (by constructor <;> simp [init_sys, init_app])).1
  · intro st hs hlen
    simp [on_unlock_clicked, hlen, hs]
  · intro st h hs
    cases h with
    | false => simp [sys_step, on_unlock_clicked]
    | true =>
      by_cases hlen : (pyStrip st.app.entry_code).length ≠ 6
      · simp [sys_step, on_unlock_clicked, hlen]
      · simp [sys_step, on_unlock_clicked, hlen, hs]

/-- Witness for C6: a concrete click while a loop is running is a
log-only no-op. -/
theorem single_active_poll_loop_witness :
    on_unlock_clicked true
      ⟨{ init_app with monitor_thread_started := true, entry_code := "123456" }, 1⟩
      = ⟨append_log { init_app with monitor_thread_started := true, entry_code := "123456" }
          "[验证] 已在轮询中。", 1⟩ :=
  single_active_poll_loop.2.1
    ⟨{ init_app with monitor_thread_started := true, entry_code := "123456" }, 1⟩
    rfl (by decide)

/-- With the `latin-1` decoder pinned to its real (total) behaviour,
the decode fallback always produces a string. -/
theorem tryEncodings_latin1_total (dec : Codec) (hl : dec .latin1 = latin1Decode)
    (content : List Byte) : ∃ t, decode_response_content dec content = some t := by
  simp only [decode_response_content, encodings, tryEncodings, hl, latin1Decode]
  cases dec Enc.utf8 content <;> cases dec Enc.gbk content <;>
    cases dec Enc.gb2312 content <;> cases dec Enc.utf16 content <;> simp

/-- Claim C7: `decode_response_content` tries the fixed encoding list
in order and returns the first successful decode — in particular bytes
that fail (real) UTF-8 but decode under GBK yield the GBK text; when
every listed encoding fails the loop signals `none`; and on a `none`
decode the text buffer is left unmodified and the decode failure is
reported. -/
theorem decode_fallback_order :
    (∀ (dec : Codec) (content : List Byte) (t : String),
      dec .utf8 = utf8Decode → utf8Decode content = none → dec .gbk content = some t →
      decode_response_content dec content = some t)
  ∧ (∀ (dec : Codec) (e : Enc) (rest : List Enc) (content : List Byte) (t : String),
      dec e content = some t → tryEncodings dec (e :: rest) content = some t)
  ∧ (∀ (dec : Codec) (encs : List Enc) (content : List Byte),
      (∀ e ∈ encs, dec e content = none) → tryEncodings dec encs content = none)
  ∧ (∀ buffer file_name : String,
      load_apply none buffer file_name = (buffer, load_decode_fail_msg)) := by
  refine ⟨?_, ?_, ?_, fun _ _ => rfl⟩
  · intro dec content t hu hn hg
    have h0 : dec .utf8 content = none := by rw [hu]; exact hn
    simp [decode_response_content, encodings, tryEncodings, h0, hg]
  · intro dec e rest content t h
    simp [tryEncodings, h]
  · intro dec encs content h
    induction encs with
    | nil => rfl
    | cons e rest ih =>
      have he := h e (by simp)
      simp [tryEncodings, he]
      exact ih (fun e' he' => h e' (by simp [he']))

/-- Witness for C7: the bytes `C4 E3` fail UTF-8 (checked on the real
UTF-8 implementation) and decode under GBK (to `你`), and the fallback
returns the GBK text. -/
theorem decode_fallback_order_witness :
    decode_response_content
      (fun e bs =>
        match e with
        | .utf8 => utf8Decode bs
        | .gbk => if bs = [0xC4, 0xE3] then some "你" else none
        | _ => none)
      [0xC4, 0xE3] = some "你" :=
  decode_fallback_order.1
    (fun e bs =>
      match e with
      | .utf8 => utf8Decode bs
      | .gbk => if bs = [0xC4, 0xE3] then some "你" else none
      | _ => none)
    [0xC4, 0xE3] "你" rfl (by decide) (by decide)

/-- Claim C10: because `latin-1` (the last encoding in the list)
decodes every byte sequence, `decode_response_content` never returns
`None` on bytes input, so the undecodable-file branch of
`loadToTextBuffer` is unreachable: every 200 download loads some
decoded text into the buffer. -/
theorem decode_always_succeeds :
    ∀ dec : Codec, dec .latin1 = latin1Decode →
      (∀ content : List Byte, (decode_response_content dec content).isSome = true)
      ∧ (∀ (resp : TransferResponse) (file_name buffer : String),
          resp.status_code = 200 →
          ∃ t, decode_response_content dec resp.content = some t
            ∧ load_file_ui dec resp file_name buffer
                = (t, "[加载] 完成，文件「" ++ file_name ++ "」已加载到文本输入框。")) := by
  intro dec hl
  constructor
  · intro content
    obtain ⟨t, ht⟩ := tryEncodings_latin1_total dec hl content
    simp [ht]
  · intro resp file_name buffer h200
    obtain ⟨t, ht⟩ := tryEncodings_latin1_total dec hl resp.content
    refine ⟨t, ht, ?_⟩
    simp [load_file_ui, h200, ht, load_apply]

/-- Witness for C10: with only `latin-1` behaving as in Python (and
every other codec failing), the fallback still succeeds on `FF`. -/
theorem decode_always_succeeds_witness :
    (decode_response_content
      (fun e bs => match e with | .latin1 => latin1Decode bs | _ => none)
      [255]).isSome = true :=
  (decode_always_succeeds
    (fun e bs => match e with | .latin1 => latin1Decode bs | _ => none) rfl).1 [255]

/-- Counterexample to C3 as stated: the Host Validator does NOT reject
a 5-segment IP-like string or a dotted-quad with an octet above 255 —
both fail `ipaddress` parsing but then pass the DNS-hostname checks
(all-digit labels are valid labels), so `normalize_host` accepts them
verbatim with `ok = true`. -/
theorem host_validator_counterexample :
    normalize_host (some "1.2.3.4.5") = .ok (true, "1.2.3.4.5")
  ∧ normalize_host (some "1.2.3.300") = .ok (true, "1.2.3.300") := by
  refine ⟨by decide, by decide⟩

/-- Claim C3 (amended): the Host Validator accepts every canonical
dotted-quad IP (octets 0-255) with an optional `:port` in `[1, 65535]`
and returns it in canonical compressed form; it rejects — returning
`ok = false` with the empty string — the empty string, a `None` input,
a bare single-label hostname and a host containing a space; but a
5-segment IP-like string and a dotted-quad with an octet above 255 are
not rejected: they are accepted as DNS-style hostnames and returned
verbatim. -/
theorem host_validator_amended :
    (∀ a b c d : Nat, a ≤ 255 → b ≤ 255 → c ≤ 255 → d ≤ 255 →
      normalize_host (some ⟨ipv4_render (a, b, c, d)⟩)
        = .ok (true, ⟨ipv4_render (a, b, c, d)⟩))
  ∧ (∀ a b c d p : Nat, a ≤ 255 → b ≤ 255 → c ≤ 255 → d ≤ 255 →
      1 ≤ p → p ≤ 65535 →
      normalize_host (some ⟨ipv4_render (a, b, c, d) ++ ':' :: decChars p⟩)
        = .ok (true, ⟨ipv4_render (a, b, c, d) ++ ':' :: decChars p⟩))
  ∧ normalize_host (some "") = .ok (false, "")
  ∧ normalize_host none = .ok (false, "")
  ∧ normalize_host (some "localhost") = .ok (false, "")
  ∧ normalize_host (some "exa mple.com") = .ok (false, "")
  ∧ normalize_host (some "1.2.3.4.5") = .ok (true, "1.2.3.4.5")
  ∧ normalize_host (some "1.2.3.300") = .ok (true, "1.2.3.300") := by
  refine ⟨?_, ?_, by decide, by decide, by decide, by decide, by decide, by decide⟩
  · intro a b c d ha hb hc hd
    show (normalize_host_core (ipv4_render (a, b, c, d))).map _ = _
    rw [normalize_host_core_quad a b c d ha hb hc hd]
    rfl
  · intro a b c d p ha hb hc hd hp1 hp2
    show (normalize_host_core (ipv4_render (a, b, c, d) ++ ':' :: decChars p)).map _ = _
    rw [normalize_host_core_quad_port a b c d p ha hb hc hd hp1 hp2]
    rfl

/-- Witness for the amended C3: the validator accepts the concrete
address `192.168.1.1:8080` and returns it unchanged. -/
theorem host_validator_amended_witness :
    normalize_host (some "192.168.1.1:8080") = .ok (true, "192.168.1.1:8080") := by
  have h := host_validator_amended.2.1 192 168 1 1 8080
    (by decide) (by decide) (by decide) (by decide) (by decide) (by decide)
  have he : (⟨ipv4_render (192, 168, 1, 1) ++ ':' :: decChars 8080⟩ : String)
      = "192.168.1.1:8080" := by decide
  rw [he] at h
  exact h

end TaxCloud
